import Mathlib

/-!
Verification development for the style-sheet-loader color-modifier core
(`src/pykrita/style_sheet_loader/style_sheet_loader.py`).

Python floats are modeled as exact rationals (`ℚ`), Python ints as `ℤ`.
Python `%` on numbers returns a result with the sign of the divisor
(`pyMod`), `int(x)` truncates toward zero (`pytrunc`), and `round(x)`
rounds half to even (`pyround`).
-/

deriving instance DecidableEq for Except

/-- Floor of a rational as an integer (kernel-reducible form of `⌊q⌋`,
see `Rat.floor_def`). -/
def ratFloor (q : ℚ) : ℤ := q.num / q.den

theorem ratFloor_eq_floor (q : ℚ) : ratFloor q = ⌊q⌋ := (Rat.floor_def).symm

/-- Python `a % b` for numbers: `a - b * floor (a / b)` (result carries the
sign of the divisor; this code base only uses positive `b`). -/
def pyMod (a b : ℚ) : ℚ := a - b * ratFloor (a / b)

/-- Python `int(x)`: truncation toward zero. -/
def pytrunc (q : ℚ) : ℤ := if q < 0 then -ratFloor (-q) else ratFloor q

/-- Python `round(x)` (one-argument form): round half to even. -/
def pyround (q : ℚ) : ℤ :=
  let f : ℤ := ratFloor q
  let r : ℚ := q - f
  if r < 1/2 then f
  else if 1/2 < r then f + 1
  else if f % 2 = 0 then f else f + 1

/-- `normalize_hue` (lines 79-81): `int(h % 360 if h >= 0 else 360 + (h % 360))`. -/
def normalize_hue (h : ℚ) : ℤ :=
  pytrunc (if 0 ≤ h then pyMod h 360 else 360 + pyMod h 360)

/-- A Python runtime value, as far as the color core manipulates them:
ints, floats, strings, `None`, and lists/tuples (which in this code base
only ever hold ints, so their elements are specialized accordingly). -/
inductive PyVal where
  | int : ℤ → PyVal
  | float : ℚ → PyVal
  | str : String → PyVal
  | intList : List ℤ → PyVal
  | intTuple : List ℤ → PyVal
  | none : PyVal
deriving DecidableEq, Repr

/-- Numeric value of a run of decimal digits. -/
def digitsToNat (ds : List Char) : ℕ := ds.foldl (fun a c => 10 * a + (c.toNat - 48)) 0

/-- Exponent suffix of a Python float literal: an optional sign followed by
at least one digit, consuming the whole remainder. -/
def parseExpSuffix (cs : List Char) : Option ℤ :=
  let (sgn, ds) := match cs with
    | '-' :: r => ((-1 : ℤ), r)
    | '+' :: r => ((1 : ℤ), r)
    | r => ((1 : ℤ), r)
  if ds.isEmpty ∨ ¬ ds.all Char.isDigit then Option.none
  else Option.some (sgn * digitsToNat ds)

/-- Python `float(<string>)` on a finite decimal or scientific literal:
optional sign, digits with an optional fractional part, optional exponent.
The special values `inf`/`infinity`/`nan` have no rational counterpart and
are treated as unparsable by this embedding. -/
def pyFloatLit (s : String) : Option ℚ :=
  let cs := s.data
  let (sgn, cs) := match cs with
    | '-' :: r => ((-1 : ℚ), r)
    | '+' :: r => ((1 : ℚ), r)
    | r => ((1 : ℚ), r)
  let ip := cs.takeWhile Char.isDigit
  let cs1 := cs.dropWhile Char.isDigit
  let (fp, cs2) := match cs1 with
    | '.' :: r => (r.takeWhile Char.isDigit, r.dropWhile Char.isDigit)
    | r => (([] : List Char), r)
  if ip.isEmpty ∧ fp.isEmpty then Option.none
  else
    let mantissa : ℚ := sgn * ((digitsToNat ip : ℚ) + (digitsToNat fp : ℚ) / 10 ^ fp.length)
    match cs2 with
    | [] => Option.some mantissa
    | 'e' :: r =>
        (parseExpSuffix r).map fun e =>
          if 0 ≤ e then mantissa * 10 ^ e.toNat else mantissa / 10 ^ (-e).toNat
    | 'E' :: r =>
        (parseExpSuffix r).map fun e =>
          if 0 ≤ e then mantissa * 10 ^ e.toNat else mantissa / 10 ^ (-e).toNat
    | _ => Option.none

/-- Python `float(value)` conversion: numbers convert, strings are parsed as
float literals (surrounding whitespace allowed), everything else raises
`TypeError` (modeled as `Option.none`). -/
def pyFloatConv : PyVal → Option ℚ
  | PyVal.int n => Option.some (n : ℚ)
  | PyVal.float q => Option.some q
  | PyVal.str s => pyFloatLit s.trim
  | _ => Option.none

/-- `clip_value` (lines 83-93): convert to float and clamp; a failed
conversion (`TypeError`/`ValueError`) yields `min_val`. -/
def clip_value (value : PyVal) (min_val : ℚ) (max_val : Option ℚ) : ℚ :=
  match pyFloatConv value with
  | Option.some v =>
      if v < min_val then min_val
      else
        match max_val with
        | Option.some m => if v > m then m else v
        | Option.none => v
  | Option.none => min_val

/-- `clip_value` applied to an in-range Python float (the common call shape
inside the color math). -/
def clipQ (v mn : ℚ) (mx : Option ℚ) : ℚ := clip_value (PyVal.float v) mn mx

/-- `rgb_to_hsl` (lines 55-77). -/
def rgb_to_hsl (r g b : ℚ) : ℚ × ℚ × ℚ :=
  let r' := r / 255
  let g' := g / 255
  let b' := b / 255
  let cmax := max r' (max g' b')
  let cmin := min r' (min g' b')
  let delta := cmax - cmin
  let h : ℚ :=
    if delta = 0 then 0
    else if cmax = r' then 60 * pyMod ((g' - b') / delta) 6
    else if cmax = g' then 60 * ((b' - r') / delta + 2)
    else 60 * ((r' - g') / delta + 4)
  let l := (cmax + cmin) / 2
  let s : ℚ := if delta = 0 then 0 else delta / (1 - |2 * l - 1|)
  (h, s * 100, l * 100)

/-- `clip_color_value` (lines 149-151): `max(min_val, min(max_val, int(round(value))))`. -/
def clip_color_value (value : ℚ) (min_val max_val : ℤ) : ℤ :=
  max min_val (min max_val (pyround value))

/-- The `hue_to_rgb` helper nested in `hsl_to_rgb` (lines 166-177). -/
def hue_to_rgb (p q t : ℚ) : ℚ :=
  let t1 := if t < 0 then t + 1 else t
  let t2 := if t1 > 1 then t1 - 1 else t1
  if t2 < 1/6 then p + (q - p) * 6 * t2
  else if t2 < 1/2 then q
  else if t2 < 2/3 then p + (q - p) * (2/3 - t2) * 6
  else p

/-- `hsl_to_rgb` (lines 153-193). -/
def hsl_to_rgb (h s l : ℚ) : ℤ × ℤ × ℤ :=
  let h := pyMod h 360
  let s := max 0 (min 100 s) / 100
  let l := max 0 (min 100 l) / 100
  if s = 0 then
    (clip_color_value (l * 255) 0 255, clip_color_value (l * 255) 0 255,
      clip_color_value (l * 255) 0 255)
  else
    let q := if l < 1/2 then l * (1 + s) else l + s - l * s
    let p := 2 * l - q
    let h' := h / 360
    (clip_color_value (hue_to_rgb p q (h' + 1/3) * 255) 0 255,
      clip_color_value (hue_to_rgb p q h' * 255) 0 255,
      clip_color_value (hue_to_rgb p q (h' - 1/3) * 255) 0 255)

/-- `calculate_color` (lines 130-147). -/
def calculate_color (base_rgb : ℤ × ℤ × ℤ) (color_mode : String)
    (h_shift s_mult l_mult alpha : ℚ) : (ℤ × ℤ × ℤ) × ℚ :=
  if color_mode = "RGB" then
    ((max 0 (min 255 (pytrunc ((base_rgb.1 : ℚ) * l_mult))),
      max 0 (min 255 (pytrunc ((base_rgb.2.1 : ℚ) * l_mult))),
      max 0 (min 255 (pytrunc ((base_rgb.2.2 : ℚ) * l_mult)))),
      clipQ alpha 0 (Option.some 1))
  else
    let hsl := rgb_to_hsl (base_rgb.1 : ℚ) (base_rgb.2.1 : ℚ) (base_rgb.2.2 : ℚ)
    let new_h := normalize_hue (hsl.1 + h_shift)
    let new_s := clipQ (hsl.2.1 * s_mult) 0 (Option.some 100)
    let new_l := clipQ (hsl.2.2 * l_mult) 0 (Option.some 100)
    (hsl_to_rgb (new_h : ℚ) new_s new_l, clipQ alpha 0 (Option.some 1))

theorem ratFloor_intCast (n : ℤ) : ratFloor (n : ℚ) = n := by
  rw [ratFloor_eq_floor]; exact Int.floor_intCast n

theorem pytrunc_intCast (n : ℤ) : pytrunc (n : ℚ) = n := by
  unfold pytrunc
  by_cases h : (n : ℚ) < 0
  · rw [if_pos h, ← Int.cast_neg, ratFloor_intCast, neg_neg]
  · rw [if_neg h, ratFloor_intCast]

theorem pyMod_eq_self (a b : ℚ) (h0 : 0 ≤ a) (h1 : a < b) : pyMod a b = a := by
  have hb : 0 < b := lt_of_le_of_lt h0 h1
  have : ratFloor (a / b) = 0 := by
    rw [ratFloor_eq_floor, Int.floor_eq_zero_iff]
    constructor
    · exact div_nonneg h0 hb.le
    · rw [div_lt_one hb]; exact h1
  rw [pyMod, this]
  push_cast
  ring

theorem pyMod_neg_eq_add (a b : ℚ) (h0 : -b ≤ a) (h1 : a < 0) : pyMod a b = a + b := by
  have hb : 0 < b := by nlinarith
  have : ratFloor (a / b) = -1 := by
    rw [ratFloor_eq_floor]
    have h2 : ((-1 : ℤ) : ℚ) ≤ a / b := by
      rw [Int.cast_neg, Int.cast_one, neg_le, ← neg_div]
      rw [div_le_one hb]
      linarith
    have h3 : a / b < (-1 : ℤ) + 1 := by
      push_cast
      simp only [neg_add_cancel]
      exact div_neg_of_neg_of_pos h1 hb
    exact Int.floor_eq_iff.mpr ⟨h2, h3⟩
  rw [pyMod, this]
  push_cast
  ring

theorem pyround_intCast (n : ℤ) : pyround (n : ℚ) = n := by
  unfold pyround
  rw [ratFloor_intCast]
  simp

theorem clip_color_value_intCast (n : ℤ) (h0 : 0 ≤ n) (h1 : n ≤ 255) :
    clip_color_value (n : ℚ) 0 255 = n := by
  unfold clip_color_value
  rw [pyround_intCast]
  omega

theorem pyMod_nonneg (a b : ℚ) (hb : 0 < b) : 0 ≤ pyMod a b := by
  unfold pyMod
  rw [ratFloor_eq_floor]
  have h1 : (⌊a / b⌋ : ℚ) ≤ a / b := Int.floor_le _
  have h2 : b * (⌊a / b⌋ : ℚ) ≤ a := by
    calc b * (⌊a / b⌋ : ℚ) ≤ b * (a / b) := by nlinarith
    _ = a := by field_simp
  linarith

theorem pyMod_lt (a b : ℚ) (hb : 0 < b) : pyMod a b < b := by
  unfold pyMod
  rw [ratFloor_eq_floor]
  have h1 : a / b < (⌊a / b⌋ : ℚ) + 1 := Int.lt_floor_add_one _
  have h2 : a < b * ((⌊a / b⌋ : ℚ) + 1) := by
    calc a = b * (a / b) := by field_simp
    _ < b * ((⌊a / b⌋ : ℚ) + 1) := by nlinarith
  nlinarith

theorem hue_to_rgb_low (p q t : ℚ) (h0 : 0 ≤ t) (h1 : t ≤ 1/6) :
    hue_to_rgb p q t = p + (q - p) * 6 * t := by
  have h2 : ¬ t < 0 := by linarith
  have h3 : ¬ t > 1 := by simp only [not_lt]; linarith
  simp only [hue_to_rgb, if_neg h2, if_neg h3]
  by_cases h : t < 1/6
  · rw [if_pos h]
  · have ht : t = 1/6 := le_antisymm h1 (not_lt.1 h)
    rw [if_neg h, if_pos (by rw [ht]; norm_num)]
    rw [ht]; ring

theorem hue_to_rgb_mid (p q t : ℚ) (h0 : 1/6 ≤ t) (h1 : t ≤ 1/2) :
    hue_to_rgb p q t = q := by
  have h2 : ¬ t < 0 := by linarith
  have h3 : ¬ t > 1 := by simp only [not_lt]; linarith
  simp only [hue_to_rgb, if_neg h2, if_neg h3, if_neg (show ¬ t < 1/6 by linarith)]
  by_cases h : t < 1/2
  · rw [if_pos h]
  · have ht : t = 1/2 := le_antisymm h1 (not_lt.1 h)
    rw [if_neg h, if_pos (by rw [ht]; norm_num)]
    rw [ht]; ring

theorem hue_to_rgb_midhigh (p q t : ℚ) (h0 : 1/2 ≤ t) (h1 : t ≤ 2/3) :
    hue_to_rgb p q t = p + (q - p) * (2/3 - t) * 6 := by
  have h2 : ¬ t < 0 := by linarith
  have h3 : ¬ t > 1 := by simp only [not_lt]; linarith
  simp only [hue_to_rgb, if_neg h2, if_neg h3,
    if_neg (show ¬ t < 1/6 by linarith)]
  by_cases h : t < 1/2
  · exact absurd h (by linarith)
  · rw [if_neg h]
    by_cases h' : t < 2/3
    · rw [if_pos h']
    · have ht : t = 2/3 := le_antisymm h1 (not_lt.1 h')
      rw [if_neg h', ht]; ring

theorem hue_to_rgb_high (p q t : ℚ) (h0 : 2/3 ≤ t) (h1 : t ≤ 1) :
    hue_to_rgb p q t = p := by
  have h2 : ¬ t < 0 := by linarith
  have h3 : ¬ t > 1 := by simp only [not_lt]; linarith
  simp only [hue_to_rgb, if_neg h2, if_neg h3,
    if_neg (show ¬ t < 1/6 by linarith), if_neg (show ¬ t < 1/2 by linarith)]
  by_cases h : t < 2/3
  · exact absurd h (by linarith)
  · rw [if_neg h]

theorem hue_to_rgb_wrap_neg (p q t : ℚ) (h : t < 0) (h1 : -1 ≤ t) :
    hue_to_rgb p q t = hue_to_rgb p q (t + 1) := by
  have h2 : ¬ t + 1 < 0 := by linarith
  have h3 : ¬ t + 1 > 1 := by simp only [not_lt]; linarith
  simp only [hue_to_rgb, if_pos h, if_neg h2, if_neg h3]

theorem hue_to_rgb_wrap_pos (p q t : ℚ) (h : t > 1) (h1 : t ≤ 2) :
    hue_to_rgb p q t = hue_to_rgb p q (t - 1) := by
  have h0 : ¬ t < 0 := by linarith
  have h2 : ¬ t - 1 < 0 := by linarith
  have h3 : ¬ t - 1 > 1 := by simp only [not_lt]; linarith
  simp only [hue_to_rgb, if_neg h0, if_pos h, if_neg h2, if_neg h3]

theorem cv_channel (x : ℚ) (v : ℤ) (h0 : 0 ≤ v) (h1 : v ≤ 255) (hx : x * 255 = (v : ℚ)) :
    clip_color_value (x * 255) 0 255 = v := by
  rw [hx]; exact clip_color_value_intCast v h0 h1

/-- The `q` intermediate of `hsl_to_rgb` on already-normalized saturation and
lightness (proof abbreviation). -/
def qVal (s l : ℚ) : ℚ := if l < 1/2 then l * (1 + s) else l + s - l * s

/-- On chromatic, in-range inputs `hsl_to_rgb` takes its sector branch with
all normalization steps a no-op. -/
theorem hsl_to_rgb_chromatic (h s l : ℚ) (hh0 : 0 ≤ h) (hh1 : h < 360)
    (hs0 : 0 < s) (hs1 : s ≤ 100) (hl0 : 0 ≤ l) (hl1 : l ≤ 100) :
    hsl_to_rgb h s l =
      (clip_color_value
          (hue_to_rgb (2 * (l/100) - qVal (s/100) (l/100)) (qVal (s/100) (l/100))
            (h/360 + 1/3) * 255) 0 255,
       clip_color_value
          (hue_to_rgb (2 * (l/100) - qVal (s/100) (l/100)) (qVal (s/100) (l/100))
            (h/360) * 255) 0 255,
       clip_color_value
          (hue_to_rgb (2 * (l/100) - qVal (s/100) (l/100)) (qVal (s/100) (l/100))
            (h/360 - 1/3) * 255) 0 255) := by
  have hms : max 0 (min 100 s) = s := by
    rw [min_eq_right hs1, max_eq_right hs0.le]
  have hml : max 0 (min 100 l) = l := by
    rw [min_eq_right hl1, max_eq_right hl0]
  have hsne : ¬ s / 100 = 0 := div_ne_zero (ne_of_gt hs0) (by norm_num)
  simp only [hsl_to_rgb, pyMod_eq_self h 360 hh0 hh1, hms, hml, if_neg hsne, qVal]

/-- C1: the claim is right and the code is wrong.  Python `%` already
returns a nonnegative result for a positive divisor, so the `360 + (h % 360)`
branch for negative hues lands in `[360, 720)`: `normalize_hue(-10)` is `710`,
not the documented `350`, the result is outside `[0, 360)`, and the function
is not idempotent there (a second application gives `350`).  The
`normalize_hue(720) = 0` part does hold. -/
theorem normalize_hue_negative_bug :
    normalize_hue (-10) = 710 ∧
    normalize_hue 720 = 0 ∧
    normalize_hue ((normalize_hue (-10) : ℤ) : ℚ) = 350 ∧
    ¬ normalize_hue (-10) < 360 := by
  with_unfolding_all decide

/-- C6: in RGB mode `calculate_color` ignores the `h` and `s` parameters,
each output channel lies in `[0, 255]`, and base `(200, 100, 50)` with
`l = 1.5` resolves to `(255, 150, 75)` (alpha clipped to `[0, 1]`). -/
theorem calculate_color_rgb_mode (base : ℤ × ℤ × ℤ) (h s h' s' l a : ℚ) :
    calculate_color base "RGB" h s l a = calculate_color base "RGB" h' s' l a ∧
    (0 ≤ (calculate_color base "RGB" h s l a).1.1 ∧
      (calculate_color base "RGB" h s l a).1.1 ≤ 255) ∧
    (0 ≤ (calculate_color base "RGB" h s l a).1.2.1 ∧
      (calculate_color base "RGB" h s l a).1.2.1 ≤ 255) ∧
    (0 ≤ (calculate_color base "RGB" h s l a).1.2.2 ∧
      (calculate_color base "RGB" h s l a).1.2.2 ≤ 255) ∧
    calculate_color (200, 100, 50) "RGB" 0 1 (3/2) 1 = ((255, 150, 75), 1) := by
  refine ⟨by simp [calculate_color], ?_, ?_, ?_, by with_unfolding_all decide⟩ <;>
    simp only [calculate_color, if_pos rfl] <;>
    exact ⟨le_max_left _ _, max_le (by norm_num) (min_le_left _ _)⟩

/-- C10: `clip_value` never raises: whenever `float(value)` fails
(`None`, non-numeric strings, lists, ...), the `except` branch returns
`min_val`, so clipping is total over arbitrary inputs. -/
theorem clip_value_unconvertible (v : PyVal) (mn : ℚ) (mx : Option ℚ)
    (h : pyFloatConv v = Option.none) : clip_value v mn mx = mn := by
  simp [clip_value, h]

/-- Witness for `clip_value_unconvertible`: `None` and the non-numeric string
`"invalid"` both fail conversion and are clipped to the minimum. -/
theorem clip_value_unconvertible_witness :
    pyFloatConv PyVal.none = Option.none ∧
    clip_value PyVal.none 0 (Option.some 1) = 0 ∧
    pyFloatConv (PyVal.str "invalid") = Option.none ∧
    clip_value (PyVal.str "invalid") 0 Option.none = 0 :=
  ⟨rfl, clip_value_unconvertible _ _ _ rfl, by with_unfolding_all decide,
    clip_value_unconvertible _ _ _ (by with_unfolding_all decide)⟩

set_option maxHeartbeats 1000000 in
theorem chromatic_r (r g b : ℤ) (r' g' b' cmax cmin S L : ℚ)
    (hr0 : 0 ≤ r) (hr1 : r ≤ 255) (hg0 : 0 ≤ g) (hg1 : g ≤ 255)
    (hb0 : 0 ≤ b) (hb1 : b ≤ 255)
    (hr255 : r' * 255 = (r : ℚ)) (hg255 : g' * 255 = (g : ℚ)) (hb255 : b' * 255 = (b : ℚ))
    (hcmaxEq : cmax = max r' (max g' b')) (hcminEq : cmin = min r' (min g' b'))
    (hdelta : 0 < cmax - cmin)
    (hS0 : 0 < S) (hS1 : S ≤ 100) (hL0 : 0 ≤ L) (hL1 : L ≤ 100)
    (hq : qVal (S/100) (L/100) = cmax)
    (hp : 2 * (L/100) - qVal (S/100) (L/100) = cmin)
    (hR : cmax = r') :
    hsl_to_rgb (60 * pyMod ((g' - b') / (cmax - cmin)) 6) S L = (r, g, b) := by
  have hcmax_g : g' ≤ cmax := by rw [hcmaxEq]; exact le_trans (le_max_left _ _) (le_max_right _ _)
  have hcmax_b : b' ≤ cmax := by rw [hcmaxEq]; exact le_trans (le_max_right _ _) (le_max_right _ _)
  have hcmin_g : cmin ≤ g' := by rw [hcminEq]; exact le_trans (min_le_right _ _) (min_le_left _ _)
  have hcmin_b : cmin ≤ b' := by rw [hcminEq]; exact le_trans (min_le_right _ _) (min_le_right _ _)
  set x : ℚ := (g' - b') / (cmax - cmin) with hx
  have hx1 : x ≤ 1 := (div_le_one hdelta).2 (by linarith)
  have hxm1 : -1 ≤ x := by
    rw [hx, le_div_iff₀ hdelta]
    linarith
  have hdx : (cmax - cmin) * x = g' - b' := by
    rw [hx]
    field_simp
  rcases le_or_lt 0 x with hx0 | hx0
  · rw [pyMod_eq_self x 6 hx0 (by linarith)]
    have hgb : b' ≤ g' := by nlinarith
    have hminb : cmin = b' := by
      rw [hcminEq, min_eq_right hgb]
      exact min_eq_right (by rw [← hR]; exact hcmax_b)
    rw [hsl_to_rgb_chromatic (60 * x) S L (by linarith) (by linarith) hS0 hS1 hL0 hL1]
    rw [hp, hq]
    simp only [Prod.mk.injEq]
    refine ⟨?_, ?_, ?_⟩
    · refine cv_channel _ r hr0 hr1 ?_
      have ht : 60 * x / 360 + 1/3 = x/6 + 1/3 := by ring
      rw [ht, hue_to_rgb_mid cmin cmax _ (by linarith) (by linarith), hR, hr255]
    · refine cv_channel _ g hg0 hg1 ?_
      have ht : 60 * x / 360 = x/6 := by ring
      rw [ht, hue_to_rgb_low cmin cmax _ (by linarith) (by linarith)]
      have hv : cmin + (cmax - cmin) * 6 * (x/6) = g' := by
        have h6 : (cmax - cmin) * 6 * (x/6) = (cmax - cmin) * x := by ring
        rw [h6, hdx, hminb]; ring
      rw [hv, hg255]
    · refine cv_channel _ b hb0 hb1 ?_
      have ht : 60 * x / 360 - 1/3 = x/6 - 1/3 := by ring
      rw [ht, hue_to_rgb_wrap_neg cmin cmax _ (by linarith) (by linarith),
        hue_to_rgb_high cmin cmax _ (by linarith) (by linarith), hminb, hb255]
  · rw [pyMod_neg_eq_add x 6 (by linarith) hx0]
    have hbg : g' ≤ b' := by nlinarith
    have hming : cmin = g' := by
      rw [hcminEq, min_eq_left hbg]
      exact min_eq_right (by rw [← hR]; exact hcmax_g)
    rw [hsl_to_rgb_chromatic (60 * (x + 6)) S L (by linarith) (by linarith) hS0 hS1 hL0 hL1]
    rw [hp, hq]
    simp only [Prod.mk.injEq]
    refine ⟨?_, ?_, ?_⟩
    · refine cv_channel _ r hr0 hr1 ?_
      have ht : 60 * (x + 6) / 360 + 1/3 = (x + 8)/6 := by ring
      rw [ht, hue_to_rgb_wrap_pos cmin cmax _ (by linarith) (by linarith),
        hue_to_rgb_mid cmin cmax _ (by linarith) (by linarith), hR, hr255]
    · refine cv_channel _ g hg0 hg1 ?_
      have ht : 60 * (x + 6) / 360 = (x + 6)/6 := by ring
      rw [ht, hue_to_rgb_high cmin cmax _ (by linarith) (by linarith), hming, hg255]
    · refine cv_channel _ b hb0 hb1 ?_
      have ht : 60 * (x + 6) / 360 - 1/3 = (x + 4)/6 := by ring
      rw [ht, hue_to_rgb_midhigh cmin cmax _ (by linarith) (by linarith)]
      have hv : cmin + (cmax - cmin) * (2/3 - (x + 4)/6) * 6 = b' := by
        have h6 : (cmax - cmin) * (2/3 - (x + 4)/6) * 6 = -((cmax - cmin) * x) := by ring
        rw [h6, hdx, hming]; ring
      rw [hv, hb255]

set_option maxHeartbeats 1000000 in
theorem chromatic_g (r g b : ℤ) (r' g' b' cmax cmin S L : ℚ)
    (hr0 : 0 ≤ r) (hr1 : r ≤ 255) (hg0 : 0 ≤ g) (hg1 : g ≤ 255)
    (hb0 : 0 ≤ b) (hb1 : b ≤ 255)
    (hr255 : r' * 255 = (r : ℚ)) (hg255 : g' * 255 = (g : ℚ)) (hb255 : b' * 255 = (b : ℚ))
    (hcmaxEq : cmax = max r' (max g' b')) (hcminEq : cmin = min r' (min g' b'))
    (hdelta : 0 < cmax - cmin)
    (hS0 : 0 < S) (hS1 : S ≤ 100) (hL0 : 0 ≤ L) (hL1 : L ≤ 100)
    (hq : qVal (S/100) (L/100) = cmax)
    (hp : 2 * (L/100) - qVal (S/100) (L/100) = cmin)
    (hG : cmax = g') :
    hsl_to_rgb (60 * ((b' - r') / (cmax - cmin) + 2)) S L = (r, g, b) := by
  have hcmax_r : r' ≤ cmax := by rw [hcmaxEq]; exact le_max_left _ _
  have hcmax_b : b' ≤ cmax := by rw [hcmaxEq]; exact le_trans (le_max_right _ _) (le_max_right _ _)
  have hcmin_r : cmin ≤ r' := by rw [hcminEq]; exact min_le_left _ _
  have hcmin_b : cmin ≤ b' := by rw [hcminEq]; exact le_trans (min_le_right _ _) (min_le_right _ _)
  set y : ℚ := (b' - r') / (cmax - cmin) with hy
  have hy1 : y ≤ 1 := (div_le_one hdelta).2 (by linarith)
  have hym1 : -1 ≤ y := by
    rw [hy, le_div_iff₀ hdelta]
    linarith
  have hdy : (cmax - cmin) * y = b' - r' := by
    rw [hy]
    field_simp
  have hminb' : min g' b' = b' := min_eq_right (by rw [← hG]; exact hcmax_b)
  rw [hsl_to_rgb_chromatic (60 * (y + 2)) S L (by linarith) (by linarith) hS0 hS1 hL0 hL1]
  rw [hp, hq]
  simp only [Prod.mk.injEq]
  refine ⟨?_, ?_, ?_⟩
  · refine cv_channel _ r hr0 hr1 ?_
    have ht : 60 * (y + 2) / 360 + 1/3 = (y + 4)/6 := by ring
    rw [ht]
    rcases le_or_lt y 0 with hy0 | hy0
    · have hbr2 : b' ≤ r' := by nlinarith
      have hminc : cmin = b' := by rw [hcminEq, hminb']; exact min_eq_right hbr2
      rw [hue_to_rgb_midhigh cmin cmax _ (by linarith) (by linarith)]
      have hv : cmin + (cmax - cmin) * (2/3 - (y + 4)/6) * 6 = r' := by
        have h6 : (cmax - cmin) * (2/3 - (y + 4)/6) * 6 = -((cmax - cmin) * y) := by ring
        rw [h6, hdy, hminc]; ring
      rw [hv, hr255]
    · have hrb : r' ≤ b' := by nlinarith
      have hminc : cmin = r' := by rw [hcminEq, hminb']; exact min_eq_left hrb
      rw [hue_to_rgb_high cmin cmax _ (by linarith) (by linarith), hminc, hr255]
  · refine cv_channel _ g hg0 hg1 ?_
    have ht : 60 * (y + 2) / 360 = (y + 2)/6 := by ring
    rw [ht, hue_to_rgb_mid cmin cmax _ (by linarith) (by linarith), hG, hg255]
  · refine cv_channel _ b hb0 hb1 ?_
    have ht : 60 * (y + 2) / 360 - 1/3 = y/6 := by ring
    rw [ht]
    rcases lt_or_le y 0 with hy0 | hy0
    · have hbr2 : b' ≤ r' := by nlinarith
      have hminc : cmin = b' := by rw [hcminEq, hminb']; exact min_eq_right hbr2
      rw [hue_to_rgb_wrap_neg cmin cmax _ (by linarith) (by linarith),
        hue_to_rgb_high cmin cmax _ (by linarith) (by linarith), hminc, hb255]
    · have hrb : r' ≤ b' := by nlinarith
      have hminc : cmin = r' := by rw [hcminEq, hminb']; exact min_eq_left hrb
      rw [hue_to_rgb_low cmin cmax _ (by linarith) (by linarith)]
      have hv : cmin + (cmax - cmin) * 6 * (y/6) = b' := by
        have h6 : (cmax - cmin) * 6 * (y/6) = (cmax - cmin) * y := by ring
        rw [h6, hdy, hminc]; ring
      rw [hv, hb255]

set_option maxHeartbeats 1000000 in
theorem chromatic_b (r g b : ℤ) (r' g' b' cmax cmin S L : ℚ)
    (hr0 : 0 ≤ r) (hr1 : r ≤ 255) (hg0 : 0 ≤ g) (hg1 : g ≤ 255)
    (hb0 : 0 ≤ b) (hb1 : b ≤ 255)
    (hr255 : r' * 255 = (r : ℚ)) (hg255 : g' * 255 = (g : ℚ)) (hb255 : b' * 255 = (b : ℚ))
    (hcmaxEq : cmax = max r' (max g' b')) (hcminEq : cmin = min r' (min g' b'))
    (hdelta : 0 < cmax - cmin)
    (hS0 : 0 < S) (hS1 : S ≤ 100) (hL0 : 0 ≤ L) (hL1 : L ≤ 100)
    (hq : qVal (S/100) (L/100) = cmax)
    (hp : 2 * (L/100) - qVal (S/100) (L/100) = cmin)
    (hB : cmax = b') :
    hsl_to_rgb (60 * ((r' - g') / (cmax - cmin) + 4)) S L = (r, g, b) := by
  have hcmax_r : r' ≤ cmax := by rw [hcmaxEq]; exact le_max_left _ _
  have hcmax_g : g' ≤ cmax := by rw [hcmaxEq]; exact le_trans (le_max_left _ _) (le_max_right _ _)
  have hcmin_r : cmin ≤ r' := by rw [hcminEq]; exact min_le_left _ _
  have hcmin_g : cmin ≤ g' := by rw [hcminEq]; exact le_trans (min_le_right _ _) (min_le_left _ _)
  set z : ℚ := (r' - g') / (cmax - cmin) with hz
  have hz1 : z ≤ 1 := (div_le_one hdelta).2 (by linarith)
  have hzm1 : -1 ≤ z := by
    rw [hz, le_div_iff₀ hdelta]
    linarith
  have hdz : (cmax - cmin) * z = r' - g' := by
    rw [hz]
    field_simp
  have hming' : min g' b' = g' := min_eq_left (by rw [← hB]; exact hcmax_g)
  rw [hsl_to_rgb_chromatic (60 * (z + 4)) S L (by linarith) (by linarith) hS0 hS1 hL0 hL1]
  rw [hp, hq]
  simp only [Prod.mk.injEq]
  refine ⟨?_, ?_, ?_⟩
  · refine cv_channel _ r hr0 hr1 ?_
    have ht : 60 * (z + 4) / 360 + 1/3 = (z + 6)/6 := by ring
    rw [ht]
    rcases le_or_lt z 0 with hz0 | hz0
    · have hrg : r' ≤ g' := by nlinarith
      have hminc : cmin = r' := by rw [hcminEq, hming']; exact min_eq_left hrg
      rw [hue_to_rgb_high cmin cmax _ (by linarith) (by linarith), hminc, hr255]
    · have hgr2 : g' ≤ r' := by nlinarith
      have hminc : cmin = g' := by rw [hcminEq, hming']; exact min_eq_right hgr2
      rw [hue_to_rgb_wrap_pos cmin cmax _ (by linarith) (by linarith),
        hue_to_rgb_low cmin cmax _ (by linarith) (by linarith)]
      have hv : cmin + (cmax - cmin) * 6 * ((z + 6)/6 - 1) = r' := by
        have h6 : (cmax - cmin) * 6 * ((z + 6)/6 - 1) = (cmax - cmin) * z := by ring
        rw [h6, hdz, hminc]; ring
      rw [hv, hr255]
  · refine cv_channel _ g hg0 hg1 ?_
    have ht : 60 * (z + 4) / 360 = (z + 4)/6 := by ring
    rw [ht]
    rcases le_or_lt z 0 with hz0 | hz0
    · have hrg : r' ≤ g' := by nlinarith
      have hminc : cmin = r' := by rw [hcminEq, hming']; exact min_eq_left hrg
      rw [hue_to_rgb_midhigh cmin cmax _ (by linarith) (by linarith)]
      have hv : cmin + (cmax - cmin) * (2/3 - (z + 4)/6) * 6 = g' := by
        have h6 : (cmax - cmin) * (2/3 - (z + 4)/6) * 6 = -((cmax - cmin) * z) := by ring
        rw [h6, hdz, hminc]; ring
      rw [hv, hg255]
    · have hgr2 : g' ≤ r' := by nlinarith
      have hminc : cmin = g' := by rw [hcminEq, hming']; exact min_eq_right hgr2
      rw [hue_to_rgb_high cmin cmax _ (by linarith) (by linarith), hminc, hg255]
  · refine cv_channel _ b hb0 hb1 ?_
    have ht : 60 * (z + 4) / 360 - 1/3 = (z + 2)/6 := by ring
    rw [ht, hue_to_rgb_mid cmin cmax _ (by linarith) (by linarith), hB, hb255]

set_option maxHeartbeats 1000000 in
/-- The HSL round trip is exact on this embedding: with exact rational
arithmetic, `hsl_to_rgb` inverts `rgb_to_hsl` on every integer triple in
`[0, 255]^3`. -/
theorem round_trip_exact (r g b : ℤ)
    (hr0 : 0 ≤ r) (hr1 : r ≤ 255) (hg0 : 0 ≤ g) (hg1 : g ≤ 255)
    (hb0 : 0 ≤ b) (hb1 : b ≤ 255) :
    (fun c : ℚ × ℚ × ℚ => hsl_to_rgb c.1 c.2.1 c.2.2) (rgb_to_hsl r g b) = (r, g, b) := by
  simp only [rgb_to_hsl]
  set r' : ℚ := (r : ℚ) / 255 with hr'
  set g' : ℚ := (g : ℚ) / 255 with hg'
  set b' : ℚ := (b : ℚ) / 255 with hb'
  set cmax : ℚ := max r' (max g' b') with hcmax
  set cmin : ℚ := min r' (min g' b') with hcmin
  have h255 : (0:ℚ) < 255 := by norm_num
  have hr'0 : 0 ≤ r' := div_nonneg (by exact_mod_cast hr0) h255.le
  have hg'0 : 0 ≤ g' := div_nonneg (by exact_mod_cast hg0) h255.le
  have hb'0 : 0 ≤ b' := div_nonneg (by exact_mod_cast hb0) h255.le
  have hr'1 : r' ≤ 1 := by rw [hr', div_le_one h255]; exact_mod_cast hr1
  have hg'1 : g' ≤ 1 := by rw [hg', div_le_one h255]; exact_mod_cast hg1
  have hb'1 : b' ≤ 1 := by rw [hb', div_le_one h255]; exact_mod_cast hb1
  have hcmax_r : r' ≤ cmax := le_max_left _ _
  have hcmax_g : g' ≤ cmax := le_trans (le_max_left _ _) (le_max_right _ _)
  have hcmax_b : b' ≤ cmax := le_trans (le_max_right _ _) (le_max_right _ _)
  have hcmin_r : cmin ≤ r' := min_le_left _ _
  have hcmin_g : cmin ≤ g' := le_trans (min_le_right _ _) (min_le_left _ _)
  have hcmin_b : cmin ≤ b' := le_trans (min_le_right _ _) (min_le_right _ _)
  have hcmin0 : 0 ≤ cmin := le_min hr'0 (le_min hg'0 hb'0)
  have hcmax1 : cmax ≤ 1 := max_le hr'1 (max_le hg'1 hb'1)
  have hr255 : r' * 255 = (r : ℚ) := by rw [hr']; ring
  have hg255 : g' * 255 = (g : ℚ) := by rw [hg']; ring
  have hb255 : b' * 255 = (b : ℚ) := by rw [hb']; ring
  by_cases hd : cmax - cmin = 0
  case pos =>
    rw [if_pos hd, if_pos hd]
    have hcc : cmax = cmin := by linarith
    have her : r' = cmax := le_antisymm hcmax_r (hcc ▸ hcmin_r)
    have heg : g' = cmax := le_antisymm hcmax_g (hcc ▸ hcmin_g)
    have heb : b' = cmax := le_antisymm hcmax_b (hcc ▸ hcmin_b)
    have hgr : g = r := by
      have h1 : (g:ℚ)/255 = (r:ℚ)/255 := by rw [← hg', ← hr', heg, her]
      field_simp at h1; exact_mod_cast h1
    have hbr : b = r := by
      have h1 : (b:ℚ)/255 = (r:ℚ)/255 := by rw [← hb', ← hr', heb, her]
      field_simp at h1; exact_mod_cast h1
    have hL : (cmax + cmin) / 2 * 100 = r' * 100 := by rw [← hcc, her]; ring
    rw [hL]
    simp only [hsl_to_rgb]
    have hs0 : max 0 (min 100 ((0:ℚ) * 100)) / 100 = 0 := by norm_num
    rw [if_pos hs0]
    have h1 : min 100 (r' * 100) = r' * 100 := min_eq_right (by nlinarith)
    have h2 : max 0 (r' * 100) = r' * 100 := max_eq_right (by nlinarith)
    have h3 : max 0 (min 100 (r' * 100)) / 100 * 255 = (r : ℚ) := by
      rw [h1, h2, hr']; ring
    rw [h3, clip_color_value_intCast r hr0 hr1, hgr, hbr]
  case neg =>
    have hcminmax : cmin ≤ cmax := le_trans hcmin_r hcmax_r
    have hdelta : 0 < cmax - cmin := lt_of_le_of_ne (by linarith) (Ne.symm hd)
    have hcmaxpos : 0 < cmax := lt_of_le_of_lt hcmin0 (by linarith)
    have hcminlt1 : cmin < 1 := lt_of_lt_of_le (by linarith) hcmax1
    rw [if_neg hd, if_neg hd]
    have habs : (1 : ℚ) - |2 * ((cmax + cmin) / 2) - 1| = 1 - |cmax + cmin - 1| := by
      have h1 : 2 * ((cmax + cmin) / 2) - 1 = cmax + cmin - 1 := by ring
      rw [h1]
    have hccpos : 0 < cmax + cmin := by linarith
    have hden_pos : 0 < 1 - |cmax + cmin - 1| := by
      rcases le_or_lt (cmax + cmin) 1 with hle | hlt
      · rw [abs_of_nonpos (by linarith)]; linarith
      · rw [abs_of_pos (by linarith)]; linarith
    have hs_le : cmax - cmin ≤ 1 - |cmax + cmin - 1| := by
      rcases le_or_lt (cmax + cmin) 1 with hle | hlt
      · rw [abs_of_nonpos (by linarith)]; linarith
      · rw [abs_of_nonneg (by linarith)]; linarith
    have hS0 : 0 < (cmax - cmin) / (1 - |2 * ((cmax + cmin) / 2) - 1|) := by
      rw [habs]; exact div_pos hdelta hden_pos
    have hS1 : (cmax - cmin) / (1 - |2 * ((cmax + cmin) / 2) - 1|) ≤ 1 := by
      rw [habs]; exact (div_le_one hden_pos).2 hs_le
    have hq : qVal ((cmax - cmin) / (1 - |2 * ((cmax + cmin) / 2) - 1|) * 100 / 100)
        ((cmax + cmin) / 2 * 100 / 100) = cmax := by
      have e1 : (cmax - cmin) / (1 - |2 * ((cmax + cmin) / 2) - 1|) * 100 / 100
          = (cmax - cmin) / (1 - |cmax + cmin - 1|) := by rw [habs]; ring
      have e2 : (cmax + cmin) / 2 * 100 / 100 = (cmax + cmin) / 2 := by ring
      rw [e1, e2, qVal]
      rcases lt_or_le (cmax + cmin) 1 with hlt | hle
      · rw [if_pos (by linarith), abs_of_nonpos (by linarith)]
        have h1 : (1 : ℚ) - -(cmax + cmin - 1) = cmax + cmin := by ring
        rw [h1]
        field_simp
        ring
      · rw [if_neg (by push_neg; linarith), abs_of_nonneg (by linarith)]
        have h2c : (0:ℚ) < 2 - (cmax + cmin) := by linarith
        have h1 : (1 : ℚ) - (cmax + cmin - 1) = 2 - (cmax + cmin) := by ring
        rw [h1]
        field_simp
        ring
    have hp : 2 * ((cmax + cmin) / 2 * 100 / 100)
        - qVal ((cmax - cmin) / (1 - |2 * ((cmax + cmin) / 2) - 1|) * 100 / 100)
          ((cmax + cmin) / 2 * 100 / 100) = cmin := by
      rw [hq]; ring
    have hS100_0 : 0 < (cmax - cmin) / (1 - |2 * ((cmax + cmin) / 2) - 1|) * 100 := by
      linarith
    have hS100_1 : (cmax - cmin) / (1 - |2 * ((cmax + cmin) / 2) - 1|) * 100 ≤ 100 := by
      linarith
    have hL0 : (0:ℚ) ≤ (cmax + cmin) / 2 * 100 := by linarith
    have hL1 : (cmax + cmin) / 2 * 100 ≤ 100 := by nlinarith
    by_cases hR : cmax = r'
    · rw [if_pos hR]
      exact chromatic_r r g b r' g' b' cmax cmin _ _ hr0 hr1 hg0 hg1 hb0 hb1
        hr255 hg255 hb255 hcmax hcmin hdelta hS100_0 hS100_1 hL0 hL1 hq hp hR
    · by_cases hG : cmax = g'
      · rw [if_neg hR, if_pos hG]
        exact chromatic_g r g b r' g' b' cmax cmin _ _ hr0 hr1 hg0 hg1 hb0 hb1
          hr255 hg255 hb255 hcmax hcmin hdelta hS100_0 hS100_1 hL0 hL1 hq hp hG
      · have hB : cmax = b' := by
          rcases max_choice r' (max g' b') with h1 | h1
          · exact absurd (hcmax.trans h1) hR
          · rcases max_choice g' b' with h2 | h2
            · exact absurd ((hcmax.trans h1).trans h2) hG
            · exact (hcmax.trans h1).trans h2
        rw [if_neg hR, if_neg hG]
        exact chromatic_b r g b r' g' b' cmax cmin _ _ hr0 hr1 hg0 hg1 hb0 hb1
          hr255 hg255 hb255 hcmax hcmin hdelta hS100_0 hS100_1 hL0 hL1 hq hp hB

/-- C5: for every ColorTriple with components in `[0, 255]`,
`hsl_to_rgb (rgb_to_hsl c)` reproduces each component within `±1` (in this
exact-rational embedding the round trip is in fact exact). -/
theorem hsl_rgb_round_trip (r g b : ℤ)
    (hr0 : 0 ≤ r) (hr1 : r ≤ 255) (hg0 : 0 ≤ g) (hg1 : g ≤ 255)
    (hb0 : 0 ≤ b) (hb1 : b ≤ 255) :
    |((fun c : ℚ × ℚ × ℚ => hsl_to_rgb c.1 c.2.1 c.2.2) (rgb_to_hsl r g b)).1 - r| ≤ 1 ∧
    |((fun c : ℚ × ℚ × ℚ => hsl_to_rgb c.1 c.2.1 c.2.2) (rgb_to_hsl r g b)).2.1 - g| ≤ 1 ∧
    |((fun c : ℚ × ℚ × ℚ => hsl_to_rgb c.1 c.2.1 c.2.2) (rgb_to_hsl r g b)).2.2 - b| ≤ 1 := by
  rw [round_trip_exact r g b hr0 hr1 hg0 hg1 hb0 hb1]
  simp

/-- Witness for `hsl_rgb_round_trip` at the concrete triple `(200, 100, 50)`. -/
theorem hsl_rgb_round_trip_witness :
    |((fun c : ℚ × ℚ × ℚ => hsl_to_rgb c.1 c.2.1 c.2.2)
        (rgb_to_hsl ((200:ℤ):ℚ) ((100:ℤ):ℚ) ((50:ℤ):ℚ))).1 - (200:ℤ)| ≤ 1 ∧
    |((fun c : ℚ × ℚ × ℚ => hsl_to_rgb c.1 c.2.1 c.2.2)
        (rgb_to_hsl ((200:ℤ):ℚ) ((100:ℤ):ℚ) ((50:ℤ):ℚ))).2.1 - (100:ℤ)| ≤ 1 ∧
    |((fun c : ℚ × ℚ × ℚ => hsl_to_rgb c.1 c.2.1 c.2.2)
        (rgb_to_hsl ((200:ℤ):ℚ) ((100:ℤ):ℚ) ((50:ℤ):ℚ))).2.2 - (50:ℤ)| ≤ 1 :=
  hsl_rgb_round_trip 200 100 50 (by decide) (by decide) (by decide) (by decide)
    (by decide) (by decide)
/-- A parsed parameter dictionary, with the defaults of line 98:
`h = 0, s = 1.0, l = 1.0, a = 1.0`. -/
structure ColorParams where
  h : ℚ
  s : ℚ
  l : ℚ
  a : ℚ
deriving DecidableEq, Repr

/-- The dictionary `{'h': 0, 's': 1.0, 'l': 1.0, 'a': 1.0}`. -/
def defaultParams : ColorParams := ⟨0, 1, 1, 1⟩

/-- Characters the parameter splitter keeps inside a token: the regex class
`[a-zA-Z0-9.-]` of line 104. -/
def paramWordChar (c : Char) : Bool := c.isAlphanum || c = '.' || c = '-'

/-- Maximal runs of token characters, as produced by
`re.split(r'[^a-zA-Z0-9.-]+', s)` on line 104.  `re.split` additionally
yields empty boundary pieces, which the loop (line 109-110) discards, so only
the nonempty runs are collected here. -/
def tokenRuns : List Char → List Char → List String
  | [], cur => if cur.isEmpty then [] else [String.mk cur.reverse]
  | c :: cs, cur =>
      if paramWordChar c then tokenRuns cs (c :: cur)
      else if cur.isEmpty then tokenRuns cs []
      else String.mk cur.reverse :: tokenRuns cs []

def tokenize (s : String) : List String := tokenRuns s.data []

/-- Python `param_str.strip('()')`: drop leading and trailing parens. -/
def stripParens (s : String) : String :=
  String.mk (((s.data.dropWhile fun c => c = '(' || c = ')').reverse.dropWhile
    fun c => c = '(' || c = ')').reverse)

/-- Python substring containment `sub in s`. -/
def containsSub (s sub : String) : Bool :=
  s.data.tails.any fun t => sub.data.isPrefixOf t

/-- Per-key value conversion inside the `parse_color_params` loop
(lines 116-122): hue is normalized, alpha clipped to `[0, 1]`, saturation
and lightness clipped below by `0`. -/
def convertParam (k : String) (v : ℚ) : ℚ :=
  if k = "h" then (normalize_hue v : ℚ)
  else if k = "a" then clipQ v 0 (Option.some 1)
  else clipQ v 0 Option.none

/-- `params[current_param] = value` for the four known keys. -/
def setParam (k : String) (v : ℚ) (ps : ColorParams) : ColorParams :=
  if k = "h" then { ps with h := v }
  else if k = "s" then { ps with s := v }
  else if k = "l" then { ps with l := v }
  else if k = "a" then { ps with a := v }
  else ps

/-- The token loop of `parse_color_params` (lines 106-126): a key token sets
the current parameter; a token that parses as a float is converted and
stored, resetting the current parameter; a `ValueError` keeps the current
parameter (the `continue` on line 125 skips the reset). -/
def parseLoop : List String → Option String → ColorParams → ColorParams
  | [], _, ps => ps
  | part :: rest, cur, ps =>
      if part = "" then parseLoop rest cur ps
      else if part = "h" || part = "s" || part = "l" || part = "a" then
        parseLoop rest (Option.some part) ps
      else
        match cur with
        | Option.some k =>
            match pyFloatLit part with
            | Option.some v =>
                parseLoop rest Option.none (setParam k (convertParam k v) ps)
            | Option.none => parseLoop rest cur ps
        | Option.none => parseLoop rest Option.none ps

/-- `parse_color_params` (lines 95-128). -/
def parse_color_params (param_str : String) : ColorParams :=
  if param_str = "" then defaultParams
  else if !(containsSub param_str "h:" || containsSub param_str "s:" ||
            containsSub param_str "l:" || containsSub param_str "a:") then
    defaultParams
  else parseLoop (tokenize (stripParens param_str)) Option.none defaultParams

/-- Key-value token pairs rendered as the flat token stream the loop sees. -/
def flattenParams : List (String × String) → List String
  | [] => []
  | (k, v) :: rest => k :: v :: flattenParams rest

theorem parseLoop_no_value (ts : List String) (cur : Option String) (ps : ColorParams)
    (h : ∀ t ∈ ts, pyFloatLit t = Option.none) :
    parseLoop ts cur ps = ps := by
  induction ts generalizing cur with
  | nil => rfl
  | cons t rest ih =>
      have ht : pyFloatLit t = Option.none := h t (List.mem_cons_self t rest)
      have hrest : ∀ t' ∈ rest, pyFloatLit t' = Option.none :=
        fun t' h' => h t' (List.mem_cons_of_mem t h')
      unfold parseLoop
      by_cases h0 : t = ""
      · rw [if_pos h0]; exact ih _ hrest
      · rw [if_neg h0]
        by_cases h1 : (t = "h" || t = "s" || t = "l" || t = "a") = true
        · rw [if_pos h1]; exact ih _ hrest
        · rw [if_neg h1]
          cases cur with
          | some k => rw [ht]; exact ih _ hrest
          | none => exact ih _ hrest

theorem pyFloatLit_empty : pyFloatLit "" = Option.none := by with_unfolding_all rfl

theorem pyFloatLit_keys :
    pyFloatLit "h" = Option.none ∧ pyFloatLit "s" = Option.none ∧
    pyFloatLit "l" = Option.none ∧ pyFloatLit "a" = Option.none := by
  with_unfolding_all decide

theorem parseLoop_flatten (l : List (String × String)) (ps : ColorParams)
    (hkeys : ∀ kv ∈ l, kv.1 = "h" ∨ kv.1 = "s" ∨ kv.1 = "l" ∨ kv.1 = "a")
    (hvals : ∀ kv ∈ l, (pyFloatLit kv.2).isSome = true) :
    parseLoop (flattenParams l) Option.none ps =
      l.foldl
        (fun ps kv => setParam kv.1 (convertParam kv.1 ((pyFloatLit kv.2).getD 0)) ps)
        ps := by
  induction l generalizing ps with
  | nil => rfl
  | cons kv rest ih =>
      obtain ⟨k, v⟩ := kv
      have hk : k = "h" ∨ k = "s" ∨ k = "l" ∨ k = "a" :=
        hkeys (k, v) (List.mem_cons_self _ _)
      have hv : (pyFloatLit v).isSome = true := hvals (k, v) (List.mem_cons_self _ _)
      obtain ⟨v', hv'⟩ := Option.isSome_iff_exists.mp hv
      have hkrest : ∀ kv ∈ rest, kv.1 = "h" ∨ kv.1 = "s" ∨ kv.1 = "l" ∨ kv.1 = "a" :=
        fun kv h => hkeys kv (List.mem_cons_of_mem _ h)
      have hvrest : ∀ kv ∈ rest, (pyFloatLit kv.2).isSome = true :=
        fun kv h => hvals kv (List.mem_cons_of_mem _ h)
      have hkne : ¬ k = "" := by
        rcases hk with h | h | h | h <;> simp [h]
      have hkkey : (k = "h" || k = "s" || k = "l" || k = "a") = true := by
        rcases hk with h | h | h | h <;> simp [h]
      have hvne : ¬ v = "" := by
        intro h; rw [h, pyFloatLit_empty] at hv'; exact Option.noConfusion hv'
      have hvkey : ¬ (v = "h" || v = "s" || v = "l" || v = "a") = true := by
        intro h
        rcases Bool.or_eq_true_iff.mp h with h' | h'
        · rcases Bool.or_eq_true_iff.mp h' with h'' | h''
          · rcases Bool.or_eq_true_iff.mp h'' with h3 | h3
            · rw [decide_eq_true_iff.mp h3, pyFloatLit_keys.1] at hv'
              exact Option.noConfusion hv'
            · rw [decide_eq_true_iff.mp h3, pyFloatLit_keys.2.1] at hv'
              exact Option.noConfusion hv'
          · rw [decide_eq_true_iff.mp h'', pyFloatLit_keys.2.2.1] at hv'
            exact Option.noConfusion hv'
        · rw [decide_eq_true_iff.mp h', pyFloatLit_keys.2.2.2] at hv'
          exact Option.noConfusion hv'
      show parseLoop (k :: v :: flattenParams rest) Option.none ps = _
      unfold parseLoop
      rw [if_neg hkne, if_pos hkkey]
      unfold parseLoop
      rw [if_neg hvne, if_neg hvkey, hv']
      simp only [List.foldl_cons, hv', Option.getD_some]
      exact ih _ hkrest hvrest

set_option maxRecDepth 4000 in
theorem setParam_comm (k1 k2 : String) (v1 v2 : ℚ) (ps : ColorParams)
    (hk1 : k1 = "h" ∨ k1 = "s" ∨ k1 = "l" ∨ k1 = "a")
    (hk2 : k2 = "h" ∨ k2 = "s" ∨ k2 = "l" ∨ k2 = "a")
    (hne : k1 ≠ k2) :
    setParam k2 v2 (setParam k1 v1 ps) = setParam k1 v1 (setParam k2 v2 ps) := by
  rcases hk1 with h | h | h | h <;> rcases hk2 with h2 | h2 | h2 | h2 <;>
    subst h <;> subst h2 <;>
    first
      | exact absurd rfl hne
      | simp [setParam]

/-- C8: parsing never fails; when no token of the parameter string parses as
a float every parameter keeps its default, and in particular both
`"h:,s:,l:,a:"` and `"invalid"` parse to the all-default ColorParams
`(h = 0, s = 1, l = 1, a = 1)`. -/
theorem parse_malformed_defaults :
    (∀ s : String, (∀ t ∈ tokenize (stripParens s), pyFloatLit t = Option.none) →
      parse_color_params s = defaultParams) ∧
    parse_color_params "h:,s:,l:,a:" = defaultParams ∧
    parse_color_params "invalid" = defaultParams := by
  refine ⟨?_, by with_unfolding_all decide, by with_unfolding_all decide⟩
  intro s hs
  unfold parse_color_params
  by_cases h0 : s = ""
  · rw [if_pos h0]
  · rw [if_neg h0]
    by_cases h1 : (!(containsSub s "h:" || containsSub s "s:" ||
        containsSub s "l:" || containsSub s "a:")) = true
    · rw [if_pos h1]
    · rw [if_neg h1]
      exact parseLoop_no_value _ _ _ hs

/-- Witness for `parse_malformed_defaults`: the string `"h: x, s: y"` has
tokens `["h", "x", "s", "y"]`, none of which parses as a float, so parsing
yields the defaults. -/
theorem parse_malformed_defaults_witness :
    parse_color_params "h: x, s: y" = defaultParams :=
  parse_malformed_defaults.1 "h: x, s: y" (by with_unfolding_all decide)

set_option maxRecDepth 40000 in
/-- C7: parameter parsing is order independent: the two spec strings parse
identically, and in general any two permutations of the same distinct-key,
parsable key/value token pairs drive the parsing loop to the same
ColorParams. -/
theorem parse_params_order_independence :
    parse_color_params "h: -2, s: 1.4, l: 1.04, a: 0.8" =
      parse_color_params "s: 1.4, h: -2, a: 0.8, l: 1.04" ∧
    (∀ l l' : List (String × String), l.Perm l' → (l.map Prod.fst).Nodup →
      (∀ kv ∈ l, kv.1 = "h" ∨ kv.1 = "s" ∨ kv.1 = "l" ∨ kv.1 = "a") →
      (∀ kv ∈ l, (pyFloatLit kv.2).isSome = true) →
      parseLoop (flattenParams l) Option.none defaultParams =
        parseLoop (flattenParams l') Option.none defaultParams) := by
  constructor
  · with_unfolding_all decide
  · intro l l' hperm hnodup hkeys hvals
    rw [parseLoop_flatten l _ hkeys hvals,
        parseLoop_flatten l' _ (fun kv h => hkeys kv (hperm.mem_iff.mpr h))
          (fun kv h => hvals kv (hperm.mem_iff.mpr h))]
    refine hperm.foldl_eq' ?_ defaultParams
    intro x hx y hy z
    by_cases hxy : x = y
    · rw [hxy]
    · have hne : x.1 ≠ y.1 := fun he =>
        hxy (List.inj_on_of_nodup_map hnodup hx hy he)
      exact setParam_comm x.1 y.1 _ _ z (hkeys x hx) (hkeys y hy) hne

/-- Witness for `parse_params_order_independence`: swapping two concrete
parsable parameters leaves the loop result unchanged. -/
theorem parse_params_order_independence_witness :
    parseLoop (flattenParams [("h", "1"), ("s", "2")]) Option.none defaultParams =
      parseLoop (flattenParams [("s", "2"), ("h", "1")]) Option.none defaultParams :=
  parse_params_order_independence.2 [("h", "1"), ("s", "2")] [("s", "2"), ("h", "1")]
    (by with_unfolding_all decide) (by with_unfolding_all decide)
    (by with_unfolding_all decide) (by with_unfolding_all decide)

/-- Python `str(n)` for an int. -/
def intStr (n : ℤ) : String := toString n

/-- Two-digit zero padding. -/
def pad2 (n : ℕ) : String := if n < 10 then "0" ++ toString n else toString n

/-- Python `f"{q:.2f}"` on an exact decimal: round half to even at two
decimal places. -/
def fmt2 (q : ℚ) : String :=
  let n := pyround (q * 100)
  if n < 0 then "-" ++ toString ((-n) / 100) ++ "." ++ pad2 ((-n) % 100).toNat
  else toString (n / 100) ++ "." ++ pad2 (n % 100).toNat

/-- Characters matched by the regex `\w` (ASCII range). -/
def wChar (c : Char) : Bool := c.isAlphanum || c = '_'

/-- A snapshot of `get_palette_rgb_values()`: color name to RGB triple. -/
abbrev Palette := List (String × (ℤ × ℤ × ℤ))

/-- The output formatting of `replace_placeholders` (lines 735-746): the
current mode picks the literal syntax; the alpha clause is omitted when
alpha is within `0.001` of `1.0`; HSL output uses int-truncated h/s/l. -/
def formatColor (mode : String) (cv : ℤ × ℤ × ℤ) (alpha : ℚ) : String :=
  if mode = "RGB" then
    if |alpha - 1| < 1/1000 then
      "rgb(" ++ intStr cv.1 ++ ", " ++ intStr cv.2.1 ++ ", " ++ intStr cv.2.2 ++ ")"
    else
      "rgba(" ++ intStr cv.1 ++ ", " ++ intStr cv.2.1 ++ ", " ++ intStr cv.2.2 ++
        ", " ++ fmt2 alpha ++ ")"
  else
    let hsl := rgb_to_hsl (cv.1 : ℚ) (cv.2.1 : ℚ) (cv.2.2 : ℚ)
    if |alpha - 1| < 1/1000 then
      "hsl(" ++ intStr (pytrunc hsl.1) ++ ", " ++ intStr (pytrunc hsl.2.1) ++ "%, " ++
        intStr (pytrunc hsl.2.2) ++ "%)"
    else
      "hsla(" ++ intStr (pytrunc hsl.1) ++ ", " ++ intStr (pytrunc hsl.2.1) ++ "%, " ++
        intStr (pytrunc hsl.2.2) ++ "%, " ++ fmt2 alpha ++ ")"

/-- The `replace_match` callback of `replace_placeholders` (lines 715-746):
unknown base names pass through unmodified; otherwise the parameters are
parsed (defaults when no parens), the color is resolved in the current mode
and formatted. -/
def replace_match (pal : Palette) (mode : String) (base_name : String)
    (param_str : Option String) (group0 : String) : String :=
  match pal.lookup base_name with
  | Option.none => group0
  | Option.some base =>
      let params :=
        match param_str with
        | Option.some p => parse_color_params p
        | Option.none => defaultParams
      let res := calculate_color base mode params.h params.s params.l params.a
      formatColor mode res.1 res.2

/-- One attempted match of the pattern `QPalette\.(\w+)(?:\((.*?)\))?` at the
start of the character list: the literal prefix, a nonempty word-character
name, then optionally a lazily matched paren group (which fails, matching
empty, when no `)` occurs before a newline).  Returns the name, the
optional parameter group and the total number of characters matched. -/
def qpTryMatch (cs : List Char) : Option (String × Option String × ℕ) :=
  if "QPalette.".data.isPrefixOf cs then
    let rest := cs.drop 9
    let name := rest.takeWhile wChar
    if name.isEmpty then Option.none
    else
      let rest2 := rest.drop name.length
      match rest2 with
      | '(' :: r3 =>
          let content := r3.takeWhile fun c => !(c = ')' || c = '\n')
          match r3.drop content.length with
          | ')' :: _ =>
              Option.some (String.mk name, Option.some (String.mk content),
                9 + name.length + content.length + 2)
          | _ => Option.some (String.mk name, Option.none, 9 + name.length)
      | _ => Option.some (String.mk name, Option.none, 9 + name.length)
  else Option.none

/-- Left-to-right, non-overlapping `re.sub` scan for the `QPalette` pattern.
The fuel argument starts at the text length; every step consumes at least
one character, so the fuel never runs out. -/
def qpScan (pal : Palette) (mode : String) : ℕ → List Char → List Char
  | 0, cs => cs
  | _ + 1, [] => []
  | fuel + 1, c :: cs =>
      match qpTryMatch (c :: cs) with
      | Option.some (name, pstr, len) =>
          (replace_match pal mode name pstr (String.mk ((c :: cs).take len))).data
            ++ qpScan pal mode fuel ((c :: cs).drop len)
      | Option.none => c :: qpScan pal mode fuel cs

/-- `replace_placeholders` (lines 709-748), with the palette snapshot and
color mode made explicit inputs (the Python method reads them from the
live application palette and `self.colorMode`). -/
def replace_placeholders (pal : Palette) (mode : String) (stylesheet : String) : String :=
  String.mk (qpScan pal mode stylesheet.data.length stylesheet.data)

/-- C9: the placeholder rewrite is deterministic — it is a function of the
base-palette snapshot, the color mode and the input text alone, so two runs
on equal inputs produce byte-identical output. -/
theorem replace_placeholders_deterministic (p1 p2 : Palette) (m1 m2 t1 t2 : String)
    (hp : p1 = p2) (hm : m1 = m2) (ht : t1 = t2) :
    replace_placeholders p1 m1 t1 = replace_placeholders p2 m2 t2 := by
  rw [hp, hm, ht]

set_option maxRecDepth 40000 in
/-- Witness for `replace_placeholders_deterministic`: two runs on the
spec's end-to-end example coincide, and the common result is the concrete
`hsla` literal the spec describes (alpha `0.80`, hue shifted and
normalized, saturation and lightness multiplied and clamped). -/
theorem replace_placeholders_deterministic_witness :
    replace_placeholders [("Highlight", (51, 153, 255))] "HSL"
        "color: QPalette.Highlight(h: -2, s: 1.4, l: 1.04, a: 0.8);" =
      replace_placeholders [("Highlight", (51, 153, 255))] "HSL"
        "color: QPalette.Highlight(h: -2, s: 1.4, l: 1.04, a: 0.8);" ∧
    replace_placeholders [("Highlight", (51, 153, 255))] "HSL"
        "color: QPalette.Highlight(h: -2, s: 1.4, l: 1.04, a: 0.8);" =
      "color: hsla(207, 100%, 62%, 0.80);" :=
  ⟨replace_placeholders_deterministic _ _ _ _ _ _ rfl rfl rfl,
    by with_unfolding_all decide⟩

/-! MD5 (RFC 1321) over natural numbers, used by the asset cache to derive
output filenames (`hashlib.md5(...).hexdigest()[:8]`, line 214).  Strings
are taken as their byte sequences; the serialized cache keys are ASCII. -/

def md5K : List ℕ := [3614090360, 3905402710, 606105819, 3250441966, 4118548399, 1200080426, 2821735955, 4249261313, 1770035416, 2336552879, 4294925233, 2304563134, 1804603682, 4254626195, 2792965006, 1236535329, 4129170786, 3225465664, 643717713, 3921069994, 3593408605, 38016083, 3634488961, 3889429448, 568446438, 3275163606, 4107603335, 1163531501, 2850285829, 4243563512, 1735328473, 2368359562, 4294588738, 2272392833, 1839030562, 4259657740, 2763975236, 1272893353, 4139469664, 3200236656, 681279174, 3936430074, 3572445317, 76029189, 3654602809, 3873151461, 530742520, 3299628645, 4096336452, 1126891415, 2878612391, 4237533241, 1700485571, 2399980690, 4293915773, 2240044497, 1873313359, 4264355552, 2734768916, 1309151649, 4149444226, 3174756917, 718787259, 3951481745]

def md5S : List ℕ := [7, 12, 17, 22, 7, 12, 17, 22, 7, 12, 17, 22, 7, 12, 17, 22, 5, 9, 14, 20, 5, 9, 14, 20, 5, 9, 14, 20, 5, 9, 14, 20, 4, 11, 16, 23, 4, 11, 16, 23, 4, 11, 16, 23, 4, 11, 16, 23, 6, 10, 15, 21, 6, 10, 15, 21, 6, 10, 15, 21, 6, 10, 15, 21]

def rotl32 (x n : ℕ) : ℕ := ((x <<< n) ||| (x >>> (32 - n))) % 4294967296

def md5Round (M : List ℕ) (st : ℕ × ℕ × ℕ × ℕ) (i : ℕ) : ℕ × ℕ × ℕ × ℕ :=
  let a := st.1
  let b := st.2.1
  let c := st.2.2.1
  let d := st.2.2.2
  let fg : ℕ × ℕ :=
    if i < 16 then ((b &&& c) ||| ((4294967295 - b) &&& d), i)
    else if i < 32 then ((d &&& b) ||| ((4294967295 - d) &&& c), (5 * i + 1) % 16)
    else if i < 48 then (b ^^^ c ^^^ d, (3 * i + 5) % 16)
    else (c ^^^ (b ||| (4294967295 - d)), (7 * i) % 16)
  let f := (fg.1 + a + md5K.getD i 0 + M.getD fg.2 0) % 4294967296
  (d, (b + rotl32 f (md5S.getD i 0)) % 4294967296, b, c)

def leWord (bs : List ℕ) : ℕ := bs.foldr (fun b acc => acc * 256 + b) 0

def md5Block (st : ℕ × ℕ × ℕ × ℕ) (chunk : List ℕ) : ℕ × ℕ × ℕ × ℕ :=
  let M := (List.range 16).map fun i => leWord ((chunk.drop (4 * i)).take 4)
  let r := (List.range 64).foldl (md5Round M) st
  ((st.1 + r.1) % 4294967296, (st.2.1 + r.2.1) % 4294967296,
    (st.2.2.1 + r.2.2.1) % 4294967296, (st.2.2.2 + r.2.2.2) % 4294967296)

def md5Pad (msg : List ℕ) : List ℕ :=
  let len := msg.length
  let padLen := (119 - len % 64) % 64
  let lenBits := (8 * len) % 18446744073709551616
  msg ++ [128] ++ List.replicate padLen 0 ++
    ((List.range 8).map fun i => (lenBits >>> (8 * i)) % 256)

def chunk64 (l : List ℕ) : List (List ℕ) :=
  if h : l.isEmpty then [] else l.take 64 :: chunk64 (l.drop 64)
termination_by l.length
decreasing_by
  have hl : l ≠ [] := by
    intro he; rw [he] at h; exact h rfl
  have : 0 < l.length := List.length_pos.mpr hl
  simp only [List.length_drop]
  omega

def hexDigit (n : ℕ) : Char := if n < 10 then Char.ofNat (48 + n) else Char.ofNat (87 + n)

def byteHex (b : ℕ) : String := String.mk [hexDigit (b / 16 % 16), hexDigit (b % 16)]

def wordHexLE (w : ℕ) : String :=
  byteHex (w % 256) ++ byteHex ((w >>> 8) % 256) ++ byteHex ((w >>> 16) % 256) ++
    byteHex ((w >>> 24) % 256)

def strBytes (s : String) : List ℕ := s.data.map fun c => c.toNat % 256

def md5hex (s : String) : String :=
  let st := (chunk64 (md5Pad (strBytes s))).foldl md5Block
    (1732584193, 4023233417, 2562383102, 271733878)
  wordHexLE st.1 ++ wordHexLE st.2.1 ++ wordHexLE st.2.2.1 ++ wordHexLE st.2.2.2


/-- Python `repr`/`str` of an int. -/
def intRepr (n : ℤ) : String := toString n

/-- Shortest exact decimal rendering of a float, as Python `repr` prints it
for values with a terminating decimal expansion (every float these
processors serialize is such); at least one fractional digit is printed
(`repr(1.0) = "1.0"`).  Non-terminating rationals have no faithful float
counterpart and fall back to `num/den` form (never exercised by the
theorems below). -/
def findDecLenAux (aq : ℚ) : ℕ → ℕ → ℕ
  | k, 0 => k
  | k, fuel + 1 => if (aq * 10 ^ k).den = 1 then k else findDecLenAux aq (k + 1) fuel

def floatRepr (q : ℚ) : String :=
  let sgn := if q < 0 then "-" else ""
  let aq := |q|
  let k := findDecLenAux aq 1 60
  if (aq * 10 ^ k).den = 1 then
    let scaled := (aq * 10 ^ k).num.toNat
    let fp := toString (scaled % 10 ^ k)
    sgn ++ toString (scaled / 10 ^ k) ++ "." ++
      String.mk (List.replicate (k - fp.length) '0') ++ fp
  else sgn ++ toString aq.num ++ "/" ++ toString aq.den

/-- Python `repr` of the values stored in the processors' parameter
dictionaries (`str.format` of a dict calls `repr` on keys and values). -/
def pyRepr : PyVal → String
  | PyVal.int n => intRepr n
  | PyVal.float q => floatRepr q
  | PyVal.str s => "\x27" ++ s ++ "\x27"
  | PyVal.intList xs => "[" ++ String.intercalate ", " (xs.map intRepr) ++ "]"
  | PyVal.intTuple xs =>
      match xs with
      | [x] => "(" ++ intRepr x ++ ",)"
      | _ => "(" ++ String.intercalate ", " (xs.map intRepr) ++ ")"
  | PyVal.none => "None"

/-- An insertion-ordered Python dict holding the color parameters. -/
abbrev PyDict := List (String × PyVal)

/-- Python `repr`/f-string of a dict. -/
def pyReprDict (d : PyDict) : String :=
  "\x7b" ++
    String.intercalate ", " (d.map fun kv => "\x27" ++ kv.1 ++ "\x27: " ++ pyRepr kv.2) ++
    "\x7d"

/-- Python `d.get(k, dflt)`. -/
def dictGet (d : PyDict) (k : String) (dflt : PyVal) : PyVal := (d.lookup k).getD dflt

/-- Three-digit zero padding. -/
def pad3 (n : ℕ) : String :=
  if n < 10 then "00" ++ toString n else if n < 100 then "0" ++ toString n else toString n

/-- Python `f"{q:.3f}"` on an exact decimal: round half to even at three
decimal places. -/
def fmt3 (q : ℚ) : String :=
  let n := pyround (q * 1000)
  if n < 0 then "-" ++ toString ((-n) / 1000) ++ "." ++ pad3 ((-n) % 1000).toNat
  else toString (n / 1000) ++ "." ++ pad3 (n % 1000).toNat

/-- Numeric value of a PyVal in arithmetic contexts; unlike `float(...)`,
expressions such as `alpha - 1.0` raise `TypeError` on strings. -/
def pyNum : PyVal → Option ℚ
  | PyVal.int n => Option.some (n : ℚ)
  | PyVal.float q => Option.some q
  | _ => Option.none

/-- Extract an RGB triple from the `rgb` dictionary entry; indexing a wrong
shape raises. -/
def pyTriple : PyVal → Option (ℤ × ℤ × ℤ)
  | PyVal.intList [a, b, c] => Option.some (a, b, c)
  | PyVal.intTuple [a, b, c] => Option.some (a, b, c)
  | _ => Option.none

/-- The color-resolution half of `transform_style_colors` (lines 277-320):
with a base color, apply the h/s/l modifiers in HSL space (or pass the base
through when the dict is empty); without one, use the literal `rgb` entry
or the literal h/s/l values.  `Option.none` models an exception inside the
`try` body. -/
def transformResolve (base_rgb : Option (ℤ × ℤ × ℤ)) (params : PyDict) :
    Option ((ℤ × ℤ × ℤ) × ℚ) :=
  match base_rgb with
  | Option.some base =>
      let hsl := rgb_to_hsl (base.1 : ℚ) (base.2.1 : ℚ) (base.2.2 : ℚ)
      if params.isEmpty then
        Option.some (hsl_to_rgb hsl.1 hsl.2.1 hsl.2.2, 1)
      else
        match pyFloatConv (dictGet params "h" (PyVal.int 0)),
            pyFloatConv (dictGet params "s" (PyVal.float 1)),
            pyFloatConv (dictGet params "l" (PyVal.float 1)),
            pyFloatConv (dictGet params "a" (PyVal.float 1)) with
        | Option.some h_mod, Option.some s_mod, Option.some l_mod, Option.some alpha =>
            let h := (normalize_hue (hsl.1 + h_mod) : ℚ)
            let s := clipQ (hsl.2.1 * s_mod) 0 (Option.some 100)
            let l := clipQ (hsl.2.2 * l_mod) 0 (Option.some 100)
            Option.some (hsl_to_rgb h s l, alpha)
        | _, _, _, _ => Option.none
  | Option.none =>
      if (params.lookup "rgb").isSome then
        match pyTriple (dictGet params "rgb" PyVal.none),
            pyNum (dictGet params "a" (PyVal.float 1)) with
        | Option.some t, Option.some alpha => Option.some (t, alpha)
        | _, _ => Option.none
      else
        match pyFloatConv (dictGet params "h" (PyVal.int 0)),
            pyFloatConv (dictGet params "s" (PyVal.int 100)),
            pyFloatConv (dictGet params "l" (PyVal.int 50)),
            pyFloatConv (dictGet params "a" (PyVal.float 1)) with
        | Option.some h, Option.some s, Option.some l, Option.some alpha =>
            Option.some (hsl_to_rgb h s l, alpha)
        | _, _, _, _ => Option.none

/-- One property rewrite of the loop in lines 323-335. -/
def transformProp (frgb : ℤ × ℤ × ℤ) (alpha : ℚ) (prop : String) : List String :=
  match prop.splitOn ":" with
  | [] => [prop]
  | [_] => [prop]
  | name0 :: rest =>
      let name := name0.trim
      let value := (String.intercalate ":" rest).trim
      if (name == "fill" || name == "color" || name == "stroke") &&
          !(value.toLower == "none") then
        (name ++ ": rgb(" ++ intRepr frgb.1 ++ ", " ++ intRepr frgb.2.1 ++ ", " ++
            intRepr frgb.2.2 ++ ")") ::
          (if 1/1000 < |alpha - 1| then [name ++ "-opacity: " ++ fmt3 alpha] else [])
      else if !(name.endsWith "-opacity") then [name ++ ": " ++ value]
      else []

/-- `transform_style_colors` (lines 262-343): rewrite `fill`/`color`/`stroke`
declarations to the resolved color, appending an `-opacity` clause when
alpha is not ~1; any exception returns the style unchanged. -/
def transform_style_colors (style : String) (base_rgb : Option (ℤ × ℤ × ℤ))
    (params : PyDict) : String :=
  if style = "" then style
  else
    let properties := ((style.splitOn ";").map String.trim).filter fun p => !(p == "")
    match transformResolve base_rgb params with
    | Option.none => style
    | Option.some fr =>
        String.intercalate "; " (properties.map (transformProp fr.1 fr.2)).flatten

/-- An SVG document, abstracted as the preorder list of the elements`
attribute dictionaries (`tree.getroot().iter()`); the transform rewrites
only the `style` attribute of each element and preserves the tree shape,
which no claim inspects. -/
abbrev SvgDoc := List (List (String × String))

/-- A file on disk: a parseable SVG document or unreadable/malformed
content (`ET.parse` raises on it). -/
inductive SvgFile where
  | good : SvgDoc → SvgFile
  | bad : SvgFile
deriving DecidableEq, Repr

/-- The file-system boundary: an association of paths to files, newest
entry first. -/
abbrev FS := List (String × SvgFile)

def fsLookup (fs : FS) (p : String) : Option SvgFile := fs.lookup p

def fsExists (fs : FS) (p : String) : Bool := (fsLookup fs p).isSome

def fsWrite (fs : FS) (p : String) (f : SvgFile) : FS := (p, f) :: fs

/-- The element loop of `SVGProcessor.process_svg` (lines 247-254). -/
def transformDoc (doc : SvgDoc) (base_rgb : Option (ℤ × ℤ × ℤ)) (params : PyDict) : SvgDoc :=
  doc.map fun attrs =>
    if (attrs.lookup "style").isSome then
      attrs.map fun kv =>
        if kv.1 = "style" then (kv.1, transform_style_colors kv.2 base_rgb params) else kv
    else attrs

/-- POSIX `os.path.join` for a relative second component. -/
def pathJoin (a b : String) : String := a ++ "/" ++ b

/-- `os.path.basename`. -/
def pathBasename (p : String) : String := (p.splitOn "/").getLastD p

/-- The stem part of `os.path.splitext`: split at the last dot, ignoring
leading dots. -/
def splitextBase (name : String) : String :=
  let cs := name.data
  let lead := cs.takeWhile fun c => c = '.'
  let rest := cs.drop lead.length
  if rest.any fun c => c = '.' then
    String.mk (lead ++ ((rest.reverse.dropWhile fun c => !(c = '.')).drop 1).reverse)
  else name

/-- `os.path.relpath(p, base)` for the paths this cache builds (a path
directly under `base`). -/
def relPath (p base : String) : String :=
  if (base ++ "/").data.isPrefixOf p.data then p.drop (base ++ "/").length else p

/-- The configuration shared by `SVGProcessor` and the loader methods:
base path, custom resource prefix string, and whether the style sheet
directory is used as a resource path. -/
structure SVGProc where
  base_path : String
  resPfx : String
  searchInDir : Bool
deriving Repr

/-- Strip an existing `prefix:` from a path (lines 208-209, 934-935). -/
def removeResPfx (P : SVGProc) (url : String) : String :=
  if url.startsWith (P.resPfx ++ ":") then url.drop (P.resPfx ++ ":").length else url

/-- Python `f"{x}"` of an `Optional[str]`. -/
def reprOptStr : Option String → String
  | Option.some s => s
  | Option.none => "None"

/-- The cache fingerprint of `get_or_process_svg` (line 214): the first
eight hex digits of the MD5 of `f"{palette_color}:{color_params}"`. -/
def params_hash (palette_color : Option String) (color_params : PyDict) : String :=
  (md5hex (reprOptStr palette_color ++ ":" ++ pyReprDict color_params)).take 8

/-- The output path computed on lines 214-217. -/
def outputPathOf (P : SVGProc) (svg_path : String) (palette_color : Option String)
    (color_params : PyDict) : String :=
  pathJoin (pathJoin P.base_path ".processed_svg")
    (splitextBase (pathBasename svg_path) ++ "_" ++
      params_hash palette_color color_params ++ ".svg")

/-- `SVGProcessor.process_svg` (lines 230-260): parse the source, recolor
every styled element, write the result; exceptions (missing or unreadable
source, unknown palette name) are re-raised to the caller. -/
def procSvg (P : SVGProc) (pal : Palette) (fs : FS) (input_path output_path : String)
    (palette_color : Option String) (color_params : PyDict) : Except String FS :=
  match fsLookup fs input_path with
  | Option.none => Except.error "FileNotFoundError"
  | Option.some SvgFile.bad => Except.error "ParseError"
  | Option.some (SvgFile.good doc) =>
      match palette_color with
      | Option.some c =>
          match pal.lookup c with
          | Option.none => Except.error "KeyError"
          | Option.some base =>
              Except.ok (fsWrite fs output_path
                (SvgFile.good (transformDoc doc (Option.some base) color_params)))
      | Option.none =>
          Except.ok (fsWrite fs output_path
            (SvgFile.good (transformDoc doc Option.none color_params)))

/-- `get_or_process_svg` (lines 205-227): strip the resource prefix, derive
the content-addressed output path, return it immediately when a file
already exists there, otherwise process the source and write the variant. -/
def get_or_process_svg (P : SVGProc) (pal : Palette) (fs : FS) (svg_path0 : String)
    (palette_color : Option String) (color_params : PyDict) :
    Except String (String × FS) :=
  let svg_path := removeResPfx P svg_path0
  let input_path := pathJoin P.base_path svg_path
  let output_path := outputPathOf P svg_path palette_color color_params
  if fsExists fs output_path then
    Except.ok (relPath output_path P.base_path, fs)
  else
    match procSvg P pal fs input_path output_path palette_color color_params with
    | Except.error e => Except.error e
    | Except.ok fs1 => Except.ok (relPath output_path P.base_path, fs1)

/-- The separator class of `re.split(r'[,\s]+', params)`. -/
def sepCW (c : Char) : Bool :=
  c = ',' || c = ' ' || c = '\t' || c = '\n' || c = '\r' ||
    c.toNat = 12 || c.toNat = 11

/-- `re.split` on runs of separator characters, keeping the empty boundary
pieces (their presence feeds the `len(parts)` dispatch).  The fuel starts
at the text length and every step consumes at least one character. -/
def splitSepsAux (p : Char → Bool) : ℕ → List Char → List Char → List String
  | _, [], cur => [String.mk cur.reverse]
  | 0, cs, cur => [String.mk (cur.reverse ++ cs)]
  | fuel + 1, c :: cs, cur =>
      if p c then String.mk cur.reverse :: splitSepsAux p fuel (cs.dropWhile p) []
      else splitSepsAux p fuel cs (c :: cur)

def splitSeps (p : Char → Bool) (s : String) : List String :=
  splitSepsAux p s.data.length s.data []

/-- Python `s.rstrip(c)`. -/
def rstripChar (s : String) (c : Char) : String :=
  String.mk (s.data.reverse.dropWhile fun d => d = c).reverse

/-- The parameter parsing of `process_rgb` (lines 1113-1139): positional
r, g, b and optional alpha; alpha values above 1 are taken as 0-255 scale. -/
def rgbColorParams (params : String) : Except String PyDict :=
  let parts := (splitSeps sepCW params).map String.trim
  let build : ℚ → ℚ → ℚ → ℚ → PyDict := fun r g b a =>
    let r1 := clip_color_value r 0 255
    let g1 := clip_color_value g 0 255
    let b1 := clip_color_value b 0 255
    let alpha := if 1 < a then clipQ (a / 255) 0 (Option.some 1) else clipQ a 0 (Option.some 1)
    [("rgb", PyVal.intTuple [r1, g1, b1]), ("a", PyVal.float alpha)]
  if 4 ≤ parts.length then
    match pyFloatLit (parts.getD 0 ""), pyFloatLit (parts.getD 1 ""),
        pyFloatLit (parts.getD 2 ""), pyFloatLit (parts.getD 3 "") with
    | Option.some r, Option.some g, Option.some b, Option.some a =>
        Except.ok (build r g b a)
    | _, _, _, _ => Except.error "ValueError"
  else if 3 ≤ parts.length then
    match pyFloatLit (parts.getD 0 ""), pyFloatLit (parts.getD 1 ""),
        pyFloatLit (parts.getD 2 "") with
    | Option.some r, Option.some g, Option.some b => Except.ok (build r g b 255)
    | _, _, _ => Except.error "ValueError"
  else Except.error "ValueError"

/-- The parameter parsing of `process_hsl` (lines 1055-1087): positional
h, s, l with optional degree/percent suffixes and an optional alpha
(percent or 0-1). -/
def hslColorParams (params : String) : Except String PyDict :=
  let parts := (splitSeps sepCW params).map String.trim
  let build : String → String → String → String → Except String PyDict :=
    fun h0 s0 l0 a0 =>
      match pyFloatLit (rstripChar h0 '°'), pyFloatLit (rstripChar s0 '%'),
          pyFloatLit (rstripChar l0 '%') with
      | Option.some h, Option.some s, Option.some l =>
          let aE : Except String ℚ :=
            if a0.data.any fun c => c = '%' then
              match pyFloatLit (rstripChar a0 '%') with
              | Option.some a => Except.ok (a / 100)
              | Option.none => Except.error "ValueError"
            else
              match pyFloatLit a0 with
              | Option.some a => Except.ok a
              | Option.none => Except.error "ValueError"
          match aE with
          | Except.ok a =>
              Except.ok [("h", PyVal.float h), ("s", PyVal.float s), ("l", PyVal.float l),
                ("a", PyVal.float (clipQ a 0 (Option.some 1)))]
          | Except.error e => Except.error e
      | _, _, _ => Except.error "ValueError"
  if 4 ≤ parts.length then
    build (parts.getD 0 "") (parts.getD 1 "") (parts.getD 2 "") (parts.getD 3 "")
  else if 3 ≤ parts.length then
    build (parts.getD 0 "") (parts.getD 1 "") (parts.getD 2 "") "100%"
  else Except.error "ValueError"

/-- The `except` fallback of the three processors: the composite is
rewritten to a plain url on the original path, prefixed when not already
(lines 1032-1036, 1103-1107, 1155-1159). -/
def mkErrUrl (P : SVGProc) (url : String) : String :=
  let u := if url.startsWith (P.resPfx ++ ":") then url else P.resPfx ++ ":" ++ url
  "url(\x27" ++ u ++ "\x27)"

/-- `process_rgb` (lines 1110-1159). -/
def process_rgb (P : SVGProc) (pal : Palette) (fs : FS) (url : String)
    (params : String) (_with_alpha : Bool) : String × FS :=
  match rgbColorParams params with
  | Except.error _ => (mkErrUrl P url, fs)
  | Except.ok cp =>
      match get_or_process_svg P pal fs url Option.none cp with
      | Except.error _ => (mkErrUrl P url, fs)
      | Except.ok r =>
          let np := if P.searchInDir then P.resPfx ++ ":" ++ r.1 else r.1
          ("url(\x27" ++ np ++ "\x27)", r.2)

/-- `process_hsl` (lines 1052-1107). -/
def process_hsl (P : SVGProc) (pal : Palette) (fs : FS) (url : String)
    (params : String) (_with_alpha : Bool) : String × FS :=
  match hslColorParams params with
  | Except.error _ => (mkErrUrl P url, fs)
  | Except.ok cp =>
      match get_or_process_svg P pal fs url Option.none cp with
      | Except.error _ => (mkErrUrl P url, fs)
      | Except.ok r =>
          let np := if P.searchInDir && !(r.1.startsWith (P.resPfx ++ ":")) then
              P.resPfx ++ ":" ++ r.1
            else r.1
          ("url(\x27" ++ np ++ "\x27)", r.2)

/-- One number token of the `re.findall(r'([hsla])\s*:\s*([-+]?\d*\.?\d+)')`
pattern: optional sign, then digits, or digits-dot-digits (the final `\d+`
is mandatory, so a trailing lone dot is not consumed). -/
def qpNumTok (cs : List Char) : Option (List Char × List Char) :=
  let sr : List Char × List Char :=
    match cs with
    | '-' :: r => (['-'], r)
    | '+' :: r => (['+'], r)
    | r => ([], r)
  let ds := sr.2.takeWhile Char.isDigit
  let cs2 := sr.2.drop ds.length
  match cs2 with
  | '.' :: r =>
      let fracs := r.takeWhile Char.isDigit
      if fracs.isEmpty then
        if ds.isEmpty then Option.none else Option.some (sr.1 ++ ds, cs2)
      else Option.some (sr.1 ++ ds ++ '.' :: fracs, r.drop fracs.length)
  | _ => if ds.isEmpty then Option.none else Option.some (sr.1 ++ ds, cs2)

/-- Whitespace for the regex `\s` (ASCII). -/
def isWs (c : Char) : Bool :=
  c = ' ' || c = '\t' || c = '\n' || c = '\r' || c.toNat = 12 || c.toNat = 11

/-- Left-to-right `re.findall` scan of `([hsla])\s*:\s*([-+]?\d*\.?\d+)`
(line 947); on a failed attempt the scan advances one character. -/
def qpFindAll : ℕ → List Char → List (String × String)
  | 0, _ => []
  | _ + 1, [] => []
  | fuel + 1, c :: cs =>
      if c = 'h' || c = 's' || c = 'l' || c = 'a' then
        match cs.dropWhile isWs with
        | ':' :: r2 =>
            match qpNumTok (r2.dropWhile isWs) with
            | Option.some nr => (String.mk [c], String.mk nr.1) :: qpFindAll fuel nr.2
            | Option.none => qpFindAll fuel cs
        | _ => qpFindAll fuel cs
      else qpFindAll fuel cs

/-- `color_params[key] = float(value)` over the findall result; a dict
lookup sees the last binding of a key. -/
def floatAll : List (String × String) → Option (List (String × ℚ))
  | [] => Option.some []
  | kv :: rest =>
      match pyFloatLit kv.2, floatAll rest with
      | Option.some v, Option.some r => Option.some ((kv.1, v) :: r)
      | _, _ => Option.none

def lookupLast (l : List (String × ℚ)) (k : String) : Option ℚ := l.reverse.lookup k

/-- The mode branch of `process_qpalette` (lines 956-1002) on the parsed
parameter pairs: HSL mode shifts/scales in HSL space, RGB mode multiplies
the channels by `l` and drops `h`/`s`; the result dictionary holds the
modified channels as a list plus the alpha. -/
def qpResolveParts (mode : String) (base : ℤ × ℤ × ℤ)
    (parts : List (String × String)) : Except String PyDict :=
  match floatAll parts with
  | Option.none => Except.error "ValueError"
  | Option.some cp =>
      let alpha := (lookupLast cp "a").getD 1
      if mode = "HSL" then
        let hsl := rgb_to_hsl (base.1 : ℚ) (base.2.1 : ℚ) (base.2.2 : ℚ)
        let h := match lookupLast cp "h" with
          | Option.some hv => (normalize_hue (hsl.1 + hv) : ℚ)
          | Option.none => hsl.1
        let s := match lookupLast cp "s" with
          | Option.some sv => clipQ (hsl.2.1 * sv) 0 (Option.some 100)
          | Option.none => hsl.2.1
        let l := match lookupLast cp "l" with
          | Option.some lv => clipQ (hsl.2.2 * lv) 0 (Option.some 100)
          | Option.none => hsl.2.2
        let m := hsl_to_rgb h s l
        Except.ok [("rgb", PyVal.intList [m.1, m.2.1, m.2.2]), ("a", PyVal.float alpha)]
      else
        let m := match lookupLast cp "l" with
          | Option.some lv =>
              (clip_color_value ((base.1 : ℚ) * lv) 0 255,
                clip_color_value ((base.2.1 : ℚ) * lv) 0 255,
                clip_color_value ((base.2.2 : ℚ) * lv) 0 255)
          | Option.none => base
        Except.ok [("rgb", PyVal.intList [m.1, m.2.1, m.2.2]), ("a", PyVal.float alpha)]

def qpResolve (mode : String) (base : ℤ × ℤ × ℤ) (params : String) : Except String PyDict :=
  qpResolveParts mode base (qpFindAll params.data.length params.data)

/-- `process_qpalette` (lines 926-1036): strip the prefix, look up the base
palette color (a `KeyError` falls to the url fallback), resolve the
parameters in the current mode (or pass the base tuple through when there
are none), and materialize the recolored variant. -/
def process_qpalette (P : SVGProc) (pal : Palette) (mode : String) (fs : FS)
    (url0 : String) (color : String) (params : Option String) : String × FS :=
  let url := removeResPfx P url0
  match pal.lookup color with
  | Option.none => (mkErrUrl P url, fs)
  | Option.some base =>
      let cpE : Except String PyDict :=
        match params with
        | Option.some ps =>
            if ps = "" then
              Except.ok [("rgb", PyVal.intTuple [base.1, base.2.1, base.2.2]),
                ("a", PyVal.float 1)]
            else qpResolve mode base ps
        | Option.none =>
            Except.ok [("rgb", PyVal.intTuple [base.1, base.2.1, base.2.2]),
              ("a", PyVal.float 1)]
      match cpE with
      | Except.error _ => (mkErrUrl P url, fs)
      | Except.ok cp =>
          match get_or_process_svg P pal fs url Option.none cp with
          | Except.error _ => (mkErrUrl P url, fs)
          | Except.ok r =>
              let np := if P.searchInDir then P.resPfx ++ ":" ++ r.1 else r.1
              ("url(\x27" ++ np ++ "\x27)", r.2)

/-- A match of the composite pattern of `process_svg_urls` (lines 880-888),
carrying the captured groups: the full match, the url (group 2), the
QPalette color and parameters (groups 3, 4), and the hsl/rgb parameter
strings (groups 5, 6). -/
structure SvgMatch where
  group0 : String
  url : String
  qpColor : Option String
  qpParams : Option String
  hslParams : Option String
  rgbParams : Option String
deriving DecidableEq, Repr

/-- Python truthiness of an optional string group. -/
def truthyOpt : Option String → Bool
  | Option.some s => !(s == "")
  | Option.none => false

/-- `handle_svg_match` (lines 890-917): dispatch on which alternative
matched; every error path is caught and yields a string, never an
exception. -/
def handle_svg_match (P : SVGProc) (pal : Palette) (mode : String) (fs : FS)
    (m : SvgMatch) : String × FS :=
  if m.url = "" then (m.group0, fs)
  else if truthyOpt m.qpColor then
    process_qpalette P pal mode fs m.url (m.qpColor.getD "") m.qpParams
  else if truthyOpt m.hslParams then
    process_hsl P pal fs m.url (m.hslParams.getD "") (containsSub m.group0.toLower "hsla")
  else if truthyOpt m.rgbParams then
    process_rgb P pal fs m.url (m.rgbParams.getD "") (containsSub m.group0.toLower "rgba")
  else (m.group0, fs)

/-- `svg_pattern.sub(handle_svg_match, stylesheet)` (line 919) on a
decomposition of the stylesheet into literal pieces and matches: each match
is replaced by its handler output, left to right, threading the file
system. -/
def substMatches (P : SVGProc) (pal : Palette) (mode : String) :
    FS → List (String ⊕ SvgMatch) → String × FS
  | fs, [] => ("", fs)
  | fs, Sum.inl s :: rest =>
      let r := substMatches P pal mode fs rest
      (s ++ r.1, r.2)
  | fs, Sum.inr m :: rest =>
      let h := handle_svg_match P pal mode fs m
      let r := substMatches P pal mode h.2 rest
      (h.1 ++ r.1, r.2)

theorem fsLookup_write_self (fs : FS) (p : String) (f : SvgFile) :
    fsLookup (fsWrite fs p f) p = Option.some f := by
  simp [fsLookup, fsWrite, List.lookup]

theorem procSvg_ok_shape (P : SVGProc) (pal : Palette) (fs : FS) (input out : String)
    (pc : Option String) (cp : PyDict) (fs1 : FS)
    (h : procSvg P pal fs input out pc cp = Except.ok fs1) :
    ∃ f, fs1 = fsWrite fs out f := by
  unfold procSvg at h
  split at h
  · exact absurd h (by simp)
  · exact absurd h (by simp)
  · split at h
    · split at h
      · exact absurd h (by simp)
      · simp only [Except.ok.injEq] at h
        exact ⟨_, h.symm⟩
    · simp only [Except.ok.injEq] at h
      exact ⟨_, h.symm⟩

/-- C4: the asset cache is idempotent — a successful call leaves the file
system so that a second identical call returns the same output path and
does not touch the file system again (the transform runs at most once);
moreover a file already present at the computed output path is returned
as-is, regardless of the state (or existence) of the source ("existence is
the sole validity check"). -/
theorem cache_idempotent_existence_check (P : SVGProc) (pal : Palette) (fs : FS)
    (path : String) (pc : Option String) (cp : PyDict) :
    (∀ p1 fs1, get_or_process_svg P pal fs path pc cp = Except.ok (p1, fs1) →
      get_or_process_svg P pal fs1 path pc cp = Except.ok (p1, fs1)) ∧
    (∀ f, fsLookup fs (outputPathOf P (removeResPfx P path) pc cp) = Option.some f →
      get_or_process_svg P pal fs path pc cp =
        Except.ok (relPath (outputPathOf P (removeResPfx P path) pc cp) P.base_path, fs)) := by
  constructor
  · intro p1 fs1 h
    simp only [get_or_process_svg] at h ⊢
    by_cases hex : fsExists fs (outputPathOf P (removeResPfx P path) pc cp) = true
    · rw [if_pos hex] at h
      simp only [Except.ok.injEq, Prod.mk.injEq] at h
      obtain ⟨hp, hfs⟩ := h
      subst hp
      subst hfs
      rw [if_pos hex]
    · rw [if_neg hex] at h
      cases hproc : procSvg P pal fs (pathJoin P.base_path (removeResPfx P path))
          (outputPathOf P (removeResPfx P path) pc cp) pc cp with
      | error e => rw [hproc] at h; exact absurd h (by simp)
      | ok fs2 =>
          rw [hproc] at h
          simp only [Except.ok.injEq, Prod.mk.injEq] at h
          obtain ⟨hp, hfs⟩ := h
          obtain ⟨f, hf⟩ := procSvg_ok_shape P pal fs _ _ pc cp fs2 hproc
          have hex1 : fsExists fs1 (outputPathOf P (removeResPfx P path) pc cp) = true := by
            rw [← hfs, hf]
            simp [fsExists, fsLookup_write_self]
          rw [if_pos hex1, hp]
  · intro f hf
    simp only [get_or_process_svg]
    have hex : fsExists fs (outputPathOf P (removeResPfx P path) pc cp) = true := by
      simp [fsExists, hf]
    rw [if_pos hex]

/-- C2 (amended): per-match processing of a composite is total and
contained, for every composite kind and every error cause.  Every match is
either left as its original text (the non-composite alternatives) or
dispatched to one of the three processors; each processor either succeeds
with the materialized recolored variant, or — on any failure (unknown
palette color, malformed parameters, missing or unreadable source image,
resolver error) — returns with the file system unchanged and the match
rewritten to a plain prefixed `url(...)` on the original image path, not
the original matched text; and the scan always continues with the
remaining matches. -/
theorem composite_error_containment :
    (∀ (P : SVGProc) (pal : Palette) (mode : String) (fs : FS) (m : SvgMatch)
        (rest : List (String ⊕ SvgMatch)),
      substMatches P pal mode fs (Sum.inr m :: rest) =
        ((handle_svg_match P pal mode fs m).1 ++
            (substMatches P pal mode (handle_svg_match P pal mode fs m).2 rest).1,
          (substMatches P pal mode (handle_svg_match P pal mode fs m).2 rest).2)) ∧
    (∀ (P : SVGProc) (pal : Palette) (mode : String) (fs : FS) (m : SvgMatch),
      handle_svg_match P pal mode fs m = (m.group0, fs) ∨
      handle_svg_match P pal mode fs m =
        process_qpalette P pal mode fs m.url (m.qpColor.getD "") m.qpParams ∨
      handle_svg_match P pal mode fs m =
        process_hsl P pal fs m.url (m.hslParams.getD "")
          (containsSub m.group0.toLower "hsla") ∨
      handle_svg_match P pal mode fs m =
        process_rgb P pal fs m.url (m.rgbParams.getD "")
          (containsSub m.group0.toLower "rgba")) ∧
    (∀ (P : SVGProc) (pal : Palette) (fs : FS) (url ps : String) (wa : Bool),
      process_rgb P pal fs url ps wa = (mkErrUrl P url, fs) ∨
      ∃ cp r, rgbColorParams ps = Except.ok cp ∧
        get_or_process_svg P pal fs url Option.none cp = Except.ok r ∧
        process_rgb P pal fs url ps wa =
          ("url(\x27" ++ (if P.searchInDir then P.resPfx ++ ":" ++ r.1 else r.1) ++
            "\x27)", r.2)) ∧
    (∀ (P : SVGProc) (pal : Palette) (fs : FS) (url ps : String) (wa : Bool),
      process_hsl P pal fs url ps wa = (mkErrUrl P url, fs) ∨
      ∃ cp r, hslColorParams ps = Except.ok cp ∧
        get_or_process_svg P pal fs url Option.none cp = Except.ok r ∧
        process_hsl P pal fs url ps wa =
          ("url(\x27" ++
            (if P.searchInDir && !(r.1.startsWith (P.resPfx ++ ":")) then
              P.resPfx ++ ":" ++ r.1
            else r.1) ++ "\x27)", r.2)) ∧
    (∀ (P : SVGProc) (pal : Palette) (mode : String) (fs : FS)
        (url0 color : String) (params : Option String),
      process_qpalette P pal mode fs url0 color params =
        (mkErrUrl P (removeResPfx P url0), fs) ∨
      ∃ cp r, get_or_process_svg P pal fs (removeResPfx P url0) Option.none cp =
          Except.ok r ∧
        process_qpalette P pal mode fs url0 color params =
          ("url(\x27" ++ (if P.searchInDir then P.resPfx ++ ":" ++ r.1 else r.1) ++
            "\x27)", r.2)) := by
  refine ⟨?_, ?_, ?_, ?_, ?_⟩
  · intro P pal mode fs m rest
    rfl
  · intro P pal mode fs m
    by_cases h1 : m.url = ""
    · exact Or.inl (by simp [handle_svg_match, h1])
    · by_cases h2 : truthyOpt m.qpColor = true
      · exact Or.inr (Or.inl (by simp [handle_svg_match, h1, h2]))
      · by_cases h3 : truthyOpt m.hslParams = true
        · exact Or.inr (Or.inr (Or.inl (by simp [handle_svg_match, h1, h2, h3])))
        · by_cases h4 : truthyOpt m.rgbParams = true
          · exact Or.inr (Or.inr (Or.inr (by simp [handle_svg_match, h1, h2, h3, h4])))
          · exact Or.inl (by simp [handle_svg_match, h1, h2, h3, h4])
  · intro P pal fs url ps wa
    cases hp : rgbColorParams ps with
    | error e => exact Or.inl (by simp only [process_rgb, hp])
    | ok cp =>
        cases hg : get_or_process_svg P pal fs url Option.none cp with
        | error e => exact Or.inl (by simp only [process_rgb, hp, hg])
        | ok r => exact Or.inr ⟨cp, r, rfl, hg, by simp only [process_rgb, hp, hg]⟩
  · intro P pal fs url ps wa
    cases hp : hslColorParams ps with
    | error e => exact Or.inl (by simp only [process_hsl, hp])
    | ok cp =>
        cases hg : get_or_process_svg P pal fs url Option.none cp with
        | error e => exact Or.inl (by simp only [process_hsl, hp, hg])
        | ok r => exact Or.inr ⟨cp, r, rfl, hg, by simp only [process_hsl, hp, hg]⟩
  · intro P pal mode fs url0 color params
    cases hl : pal.lookup color with
    | none => exact Or.inl (by simp only [process_qpalette, hl])
    | some base =>
        cases params with
        | none =>
            cases hg : get_or_process_svg P pal fs (removeResPfx P url0) Option.none
                [("rgb", PyVal.intTuple [base.1, base.2.1, base.2.2]),
                  ("a", PyVal.float 1)] with
            | error e => exact Or.inl (by simp only [process_qpalette, hl, hg])
            | ok r =>
                exact Or.inr ⟨_, r, hg, by simp only [process_qpalette, hl, hg]⟩
        | some ps =>
            by_cases hps : ps = ""
            · cases hg : get_or_process_svg P pal fs (removeResPfx P url0) Option.none
                  [("rgb", PyVal.intTuple [base.1, base.2.1, base.2.2]),
                    ("a", PyVal.float 1)] with
              | error e =>
                  exact Or.inl (by simp only [process_qpalette, hl, if_pos hps, hg])
              | ok r =>
                  exact Or.inr ⟨_, r, hg,
                    by simp only [process_qpalette, hl, if_pos hps, hg]⟩
            · cases hq : qpResolve mode base ps with
              | error e =>
                  exact Or.inl (by simp only [process_qpalette, hl, if_neg hps, hq])
              | ok cp =>
                  cases hg : get_or_process_svg P pal fs (removeResPfx P url0)
                      Option.none cp with
                  | error e =>
                      exact Or.inl
                        (by simp only [process_qpalette, hl, if_neg hps, hq, hg])
                  | ok r =>
                      exact Or.inr ⟨cp, r, hg,
                        by simp only [process_qpalette, hl, if_neg hps, hq, hg]⟩

theorem lookup_perm_nodup (l l2 : List (String × ℚ)) (h : l.Perm l2)
    (nd : (l.map Prod.fst).Nodup) (k : String) : l.lookup k = l2.lookup k := by
  induction h with
  | nil => rfl
  | cons x p ih =>
      obtain ⟨k1, v1⟩ := x
      have nd' : _ := nd
      simp only [List.map, List.nodup_cons] at nd'
      cases hk : k == k1 with
      | true => simp only [List.lookup, hk]
      | false => simp only [List.lookup, hk]; exact ih nd'.2
  | swap x y l =>
      obtain ⟨k1, v1⟩ := x
      obtain ⟨k2, v2⟩ := y
      have hne : ¬ k2 = k1 := by
        intro he
        simp only [List.map, List.nodup_cons, List.mem_cons] at nd
        exact nd.1 (Or.inl he)
      cases h2 : k == k2 with
      | true =>
          cases h1 : k == k1 with
          | true =>
              exact absurd ((eq_of_beq h2).symm.trans (eq_of_beq h1)) hne
          | false => simp only [List.lookup, h1, h2]
      | false =>
          cases h1 : k == k1 with
          | true => simp only [List.lookup, h1, h2]
          | false => simp only [List.lookup, h1, h2]
  | trans p1 p2 ih1 ih2 =>
      rw [ih1 nd, ih2 ((p1.map Prod.fst).nodup_iff.mp nd)]

theorem lookupLast_perm (l l2 : List (String × ℚ)) (h : l.Perm l2)
    (nd : (l.map Prod.fst).Nodup) (k : String) : lookupLast l k = lookupLast l2 k := by
  unfold lookupLast
  refine lookup_perm_nodup _ _ ((l.reverse_perm.trans h).trans l2.reverse_perm.symm) ?_ k
  rw [List.map_reverse]
  exact List.nodup_reverse.mpr nd

theorem floatAll_eq_map (l : List (String × String))
    (h : ∀ kv ∈ l, (pyFloatLit kv.2).isSome = true) :
    floatAll l = Option.some (l.map fun kv => (kv.1, (pyFloatLit kv.2).getD 0)) := by
  induction l with
  | nil => rfl
  | cons kv rest ih =>
      obtain ⟨v, hv⟩ := Option.isSome_iff_exists.mp (h kv (List.mem_cons_self _ _))
      simp only [floatAll, hv, ih fun x hx => h x (List.mem_cons_of_mem _ hx), List.map,
        Option.getD_some]

theorem qpResolveParts_perm (mode : String) (base : ℤ × ℤ × ℤ)
    (l l2 : List (String × String)) (hperm : l.Perm l2)
    (nd : (l.map Prod.fst).Nodup)
    (hvals : ∀ kv ∈ l, (pyFloatLit kv.2).isSome = true) :
    qpResolveParts mode base l = qpResolveParts mode base l2 := by
  have hvals2 : ∀ kv ∈ l2, (pyFloatLit kv.2).isSome = true :=
    fun kv h => hvals kv (hperm.mem_iff.mpr h)
  have hmap : (l.map fun kv => (kv.1, (pyFloatLit kv.2).getD 0)).Perm
      (l2.map fun kv => (kv.1, (pyFloatLit kv.2).getD 0)) := hperm.map _
  have hnd : ((l.map fun kv => (kv.1, (pyFloatLit kv.2).getD 0)).map Prod.fst).Nodup := by
    rw [List.map_map]
    exact nd
  have ha := lookupLast_perm _ _ hmap hnd "a"
  have hh := lookupLast_perm _ _ hmap hnd "h"
  have hs := lookupLast_perm _ _ hmap hnd "s"
  have hl := lookupLast_perm _ _ hmap hnd "l"
  simp only [qpResolveParts, floatAll_eq_map l hvals, floatAll_eq_map l2 hvals2, ha, hh,
    hs, hl]

/-- C3 (amended): the cache key is a function of the resolved parameters,
so within one expression kind two expressions that resolve identically map
to the identical cache entry — rgb/rgba with the same parsed values, hsl/hsla
with the same parsed values, and QPalette expressions under any permutation
of their (distinct-key) named parameters.  Across kinds the claim fails:
expressions resolving to the same final color serialize different parameter
dictionaries, hence different keys (see the counterexample). -/
theorem cache_key_same_kind_consistency :
    (∀ (P : SVGProc) (pal : Palette) (fs : FS) (url p1 p2 : String) (wa1 wa2 : Bool)
        (cp : PyDict), rgbColorParams p1 = Except.ok cp →
      rgbColorParams p2 = Except.ok cp →
      process_rgb P pal fs url p1 wa1 = process_rgb P pal fs url p2 wa2) ∧
    (∀ (P : SVGProc) (pal : Palette) (fs : FS) (url p1 p2 : String) (wa1 wa2 : Bool)
        (cp : PyDict), hslColorParams p1 = Except.ok cp →
      hslColorParams p2 = Except.ok cp →
      process_hsl P pal fs url p1 wa1 = process_hsl P pal fs url p2 wa2) ∧
    (∀ (mode : String) (base : ℤ × ℤ × ℤ) (l l2 : List (String × String)),
      l.Perm l2 → (l.map Prod.fst).Nodup →
      (∀ kv ∈ l, (pyFloatLit kv.2).isSome = true) →
      qpResolveParts mode base l = qpResolveParts mode base l2) ∧
    (∀ (P : SVGProc) (pal : Palette) (mode : String) (fs : FS)
        (url color ps1 ps2 : String) (base : ℤ × ℤ × ℤ),
      pal.lookup color = Option.some base → ¬ ps1 = "" → ¬ ps2 = "" →
      qpResolve mode base ps1 = qpResolve mode base ps2 →
      process_qpalette P pal mode fs url color (Option.some ps1) =
        process_qpalette P pal mode fs url color (Option.some ps2)) := by
  refine ⟨?_, ?_, ?_, ?_⟩
  · intro P pal fs url p1 p2 wa1 wa2 cp h1 h2
    simp only [process_rgb, h1, h2]
  · intro P pal fs url p1 p2 wa1 wa2 cp h1 h2
    simp only [process_hsl, h1, h2]
  · exact fun mode base l l2 hperm nd hvals => qpResolveParts_perm mode base l l2 hperm nd hvals
  · intro P pal mode fs url color ps1 ps2 base hbase hne1 hne2 hres
    simp only [process_qpalette, hbase, if_neg hne1, if_neg hne2, hres]

set_option maxRecDepth 400000 in
theorem cache_idempotent_existence_check_witness :
    get_or_process_svg ⟨"base", "stylesheet", true⟩ []
        [("base/.processed_svg/x_e5b40469.svg",
            SvgFile.good [[("style", "fill: rgb(1, 2, 3)")]]),
          ("base/x.svg", SvgFile.good [[("style", "fill: #000")]])]
        "x.svg" Option.none [("rgb", PyVal.intTuple [1, 2, 3]), ("a", PyVal.float 1)] =
      Except.ok (".processed_svg/x_e5b40469.svg",
        [("base/.processed_svg/x_e5b40469.svg",
            SvgFile.good [[("style", "fill: rgb(1, 2, 3)")]]),
          ("base/x.svg", SvgFile.good [[("style", "fill: #000")]])]) :=
  (cache_idempotent_existence_check ⟨"base", "stylesheet", true⟩ []
      [("base/x.svg", SvgFile.good [[("style", "fill: #000")]])] "x.svg" Option.none
      [("rgb", PyVal.intTuple [1, 2, 3]), ("a", PyVal.float 1)]).1
    ".processed_svg/x_e5b40469.svg"
    [("base/.processed_svg/x_e5b40469.svg",
        SvgFile.good [[("style", "fill: rgb(1, 2, 3)")]]),
      ("base/x.svg", SvgFile.good [[("style", "fill: #000")]])]
    (by with_unfolding_all decide)

set_option maxRecDepth 400000 in
/-- C2 counterexample: a composite whose source image is missing is caught
per-match, but its replacement is the rewritten plain prefixed url, not the
original matched text. -/
theorem composite_error_rewrites_text :
    handle_svg_match ⟨"base", "stylesheet", true⟩ [] "RGB" []
        ⟨"url(\x27x.svg\x27).rgb(1, 2, 3)", "x.svg", Option.none, Option.none,
          Option.none, Option.some "1, 2, 3"⟩ =
      ("url(\x27stylesheet:x.svg\x27)", []) ∧
    ¬ "url(\x27stylesheet:x.svg\x27)" = "url(\x27x.svg\x27).rgb(1, 2, 3)" := by
  with_unfolding_all decide

set_option maxRecDepth 400000 in
/-- C3 counterexample: `hsl(0, 100%, 50%)` and `rgb(255, 0, 0)` denote the
same final color — recoloring a style with either parsed parameter
dictionary paints the identical result — yet the two kinds serialize
different parameter dictionaries, so their cache keys and output paths
differ. -/
theorem cache_key_cross_kind_differs :
    hslColorParams "0, 100%, 50%" =
      Except.ok [("h", PyVal.float 0), ("s", PyVal.float 100), ("l", PyVal.float 50),
        ("a", PyVal.float 1)] ∧
    rgbColorParams "255, 0, 0" =
      Except.ok [("rgb", PyVal.intTuple [255, 0, 0]), ("a", PyVal.float 1)] ∧
    transform_style_colors "fill: #fff" Option.none
        [("h", PyVal.float 0), ("s", PyVal.float 100), ("l", PyVal.float 50),
          ("a", PyVal.float 1)] =
      transform_style_colors "fill: #fff" Option.none
        [("rgb", PyVal.intTuple [255, 0, 0]), ("a", PyVal.float 1)] ∧
    ¬ params_hash Option.none
        [("h", PyVal.float 0), ("s", PyVal.float 100), ("l", PyVal.float 50),
          ("a", PyVal.float 1)] =
      params_hash Option.none [("rgb", PyVal.intTuple [255, 0, 0]), ("a", PyVal.float 1)] ∧
    ¬ outputPathOf ⟨"base", "stylesheet", true⟩ "x.svg" Option.none
        [("h", PyVal.float 0), ("s", PyVal.float 100), ("l", PyVal.float 50),
          ("a", PyVal.float 1)] =
      outputPathOf ⟨"base", "stylesheet", true⟩ "x.svg" Option.none
        [("rgb", PyVal.intTuple [255, 0, 0]), ("a", PyVal.float 1)] := by
  with_unfolding_all decide

set_option maxRecDepth 400000 in
theorem cache_key_same_kind_consistency_witness :
    process_rgb ⟨"base", "stylesheet", true⟩ [] [] "x.svg" "255,0,0" false =
      process_rgb ⟨"base", "stylesheet", true⟩ [] [] "x.svg" "255, 0,  0" true ∧
    qpResolveParts "HSL" (10, 20, 30) [("h", "10"), ("s", "2")] =
      qpResolveParts "HSL" (10, 20, 30) [("s", "2"), ("h", "10")] :=
  ⟨cache_key_same_kind_consistency.1 ⟨"base", "stylesheet", true⟩ [] [] "x.svg"
      "255,0,0" "255, 0,  0" false true
      [("rgb", PyVal.intTuple [255, 0, 0]), ("a", PyVal.float 1)]
      (by with_unfolding_all decide) (by with_unfolding_all decide),
    cache_key_same_kind_consistency.2.2.1 "HSL" (10, 20, 30)
      [("h", "10"), ("s", "2")] [("s", "2"), ("h", "10")]
      (by decide) (by decide) (by with_unfolding_all decide)⟩

section EmbeddingValidation

/- Spot checks that the embedding computes: a few concrete evaluations of
the numeric core on inputs worked out by hand from the Python code. -/

example : normalize_hue (-10) = 710 := by with_unfolding_all decide
example : normalize_hue 720 = 0 := by with_unfolding_all decide
example : pyFloatLit "1.04" = Option.some (26/25) := by with_unfolding_all decide
example : pyFloatLit "-2" = Option.some (-2) := by with_unfolding_all decide
example : pyFloatLit "" = Option.none := by with_unfolding_all decide
example : pyFloatLit "1.2.3" = Option.none := by with_unfolding_all decide
example : pyFloatLit "1e-2" = Option.some (1/100) := by with_unfolding_all decide
example : hsl_to_rgb 0 100 50 = (255, 0, 0) := by with_unfolding_all decide
example :
    (fun c : ℚ × ℚ × ℚ => hsl_to_rgb c.1 c.2.1 c.2.2) (rgb_to_hsl 200 100 50) =
      (200, 100, 50) := by with_unfolding_all decide

example :
    (fun c : ℚ × ℚ × ℚ => hsl_to_rgb c.1 c.2.1 c.2.2) (rgb_to_hsl 13 252 17) =
      (13, 252, 17) := by with_unfolding_all decide

example :
    (fun c : ℚ × ℚ × ℚ => hsl_to_rgb c.1 c.2.1 c.2.2) (rgb_to_hsl 0 0 0) =
      (0, 0, 0) := by with_unfolding_all decide

example :
    (fun c : ℚ × ℚ × ℚ => hsl_to_rgb c.1 c.2.1 c.2.2) (rgb_to_hsl 7 7 250) =
      (7, 7, 250) := by with_unfolding_all decide

example :
    calculate_color (200, 100, 50) "RGB" 0 1 (3/2) 1 = ((255, 150, 75), 1) := by
  with_unfolding_all decide

end EmbeddingValidation
